import Mathlib

/-!
Verification development for the wails-spectrum-analyzer repository.

The repository is a browser audio player with a 31-band equalizer and a
spectrum visualizer.  The core under verification is the audio-graph
lifecycle manager `useAudioGraph` (src/unnamed/part_001, second copy,
lines 104-260), the transport toggle `togglePlay`
(src/unnamed/part_000, lines 93-111) and the `formatTime` helper
(src/unnamed/part_003).

Modelling conventions:
  * JavaScript numbers are modelled as exact rationals (ℚ); `formatTime`
    additionally distinguishes the non-finite values NaN/±Infinity via
    the `JsNum` type.
  * The Web Audio host state (the process-wide `GLOBAL_AUDIO_CTX`
    singleton, the `MEDIA_SRC` WeakMap, the allocated nodes and the
    connection edges) is an explicit `WebAudioState` record.  Node
    creation draws fresh ids from a counter.
  * `AudioNode.connect`/`disconnect` follow the Web Audio semantics:
    `disconnect()` drops every outgoing edge of the node (a no-op on an
    unconnected node, it never throws), `connect(dst)` adds the edge
    unless it is already present (duplicate connections between the same
    pair of nodes are ignored by the host).
  * The React `useRef` cells of one `useAudioGraph` instance form a
    `ManagerState`.  TypeScript non-null assertions (`ref.current!`)
    are modelled with `Option.getD`.
  * `ensureGraph` is an async function whose only suspension point is
    `await GLOBAL_AUDIO_CTX.resume()`.  Besides the sequential function
    `ensureGraph`, a small-step system (`stepCall`/`runCalls`) executes
    any number of overlapping calls: each call runs atomically from its
    entry to the `await` (or to the end when the context is not
    suspended), and atomically from the completed `await` to the end.
    This mirrors the single-threaded, cooperative JS event loop.
-/

/-- The host's `BiquadFilterNode.type` values used by this program.
`createBiquadFilter` defaults to `lowpass`; the code sets `peaking`. -/
inductive BiquadType
  | lowpass
  | peaking
deriving DecidableEq

/-- One Web Audio node, identified elsewhere by a numeric id.
`gainNode` carries its `gain.value`; `biquad` carries
`type`/`frequency.value`/`Q.value`/`gain.value`; `analyser` carries
`fftSize` and `smoothingTimeConstant`. -/
inductive NodeData
  | mediaSource
  | gainNode (gain : ℚ)
  | biquad (ftype : BiquadType) (freq : ℚ) (q : ℚ) (gain : ℚ)
  | analyser (fftSize : Nat) (smoothing : ℚ)
  | destination
deriving DecidableEq

/-- The process-wide `AudioContext` (`GLOBAL_AUDIO_CTX`): its
`suspended` flag (state "suspended" vs "running") and the id of its
`destination` node. -/
structure AudioCtx where
  suspended : Bool
  destId : Nat
deriving DecidableEq

/-- The Web Audio host state shared by the whole process.
`ctx` is `GLOBAL_AUDIO_CTX`, `mediaSrc` is the `MEDIA_SRC` WeakMap
(element identity ↦ media-source node id), `nodes` the allocated nodes,
`edges` the directed connections.  `srcCreated` is a history variable:
it logs the element identity of every `createMediaElementSource` call
ever executed (used to state the at-most-one-source-binding claim). -/
structure WebAudioState where
  ctx : Option AudioCtx
  mediaSrc : List (Nat × Nat)
  nextId : Nat
  nodes : List (Nat × NodeData)
  edges : List (Nat × Nat)
  srcCreated : List Nat
deriving DecidableEq

/-- The pristine host state: no context, empty side table, no nodes. -/
def WebAudioState.init : WebAudioState :=
  { ctx := none, mediaSrc := [], nextId := 0, nodes := [], edges := [], srcCreated := [] }

/-- First value bound to a key in an association list (`WeakMap.get`,
and the node store lookup). -/
def assocFind {α : Type} : List (Nat × α) → Nat → Option α
  | [], _ => none
  | (k, v) :: rest, n => if k = n then some v else assocFind rest n

/-- Allocate a node with a fresh id. -/
def WebAudioState.allocNode (w : WebAudioState) (d : NodeData) : Nat × WebAudioState :=
  (w.nextId, { w with nextId := w.nextId + 1, nodes := (w.nextId, d) :: w.nodes })

/-- Read a node from the store. -/
def WebAudioState.getNode (w : WebAudioState) (n : Nat) : Option NodeData :=
  assocFind w.nodes n

/-- `node.disconnect()` on the edge list: drop every outgoing edge of
`n`.  A no-op when `n` has no outgoing edge (it never fails). -/
def edgesDisconnect (es : List (Nat × Nat)) (n : Nat) : List (Nat × Nat) :=
  es.filter (fun p => p.1 != n)

/-- `a.connect(b)` on the edge list: add the edge unless already
present (the host ignores duplicate connections). -/
def edgesConnect (es : List (Nat × Nat)) (a b : Nat) : List (Nat × Nat) :=
  if (a, b) ∈ es then es else (a, b) :: es

/-- Tail of the rewiring loop: `a` is `nodes[i]`, the list holds the
remaining `nodes[i+1..]`. -/
def rewireChainAux (es : List (Nat × Nat)) (a : Nat) : List Nat → List (Nat × Nat)
  | [] => es
  | b :: rest => rewireChainAux (edgesConnect (edgesDisconnect es a) a b) b rest

/-- The loop `for (let i = 0; i < nodes.length - 1; i++) {
try { nodes[i].disconnect() } catch {}; nodes[i].connect(nodes[i+1]) }`
over the edge list. -/
def rewireChainEdges (es : List (Nat × Nat)) : List Nat → List (Nat × Nat)
  | [] => es
  | a :: rest => rewireChainAux es a rest

/-- `node.gain.value = v` (the `gain` AudioParam of a gain node or of a
biquad filter; other nodes have no such param and are never targeted). -/
def NodeData.withGainParam (d : NodeData) (v : ℚ) : NodeData :=
  match d with
  | .gainNode _ => .gainNode v
  | .biquad t f qv _ => .biquad t f qv v
  | d => d

/-- `an.fftSize = f; an.smoothingTimeConstant = s` on an analyser node. -/
def NodeData.withAnalyserOpts (d : NodeData) (fftSize : Nat) (smoothing : ℚ) : NodeData :=
  match d with
  | .analyser _ _ => .analyser fftSize smoothing
  | d => d

/-- Apply a node mutation at id `n` in the store. -/
def WebAudioState.setNodeAt (w : WebAudioState) (n : Nat) (f : NodeData → NodeData) : WebAudioState :=
  { w with nodes := w.nodes.map (fun p => (p.1, if p.1 = n then f p.2 else p.2)) }

/-- 31-band EQ center frequencies (1/3 octave), from
src/unnamed/part_001 lines 112-116 (the source's `31.5` is written
`mkRat 63 2`). -/
def EQ_FREQUENCIES : List ℚ :=
  [20, 25, mkRat 63 2, 40, 50, 63, 80, 100, 125, 160, 200, 250, 315, 400, 500, 630,
   800, 1000, 1250, 1600, 2000, 2500, 3150, 4000, 5000, 6300, 8000, 10000, 12500,
   16000, 20000]

/-- The `GraphOptions` record (src/unnamed/part_001 lines 118-124)
as the caller `SpectrumPlayer` supplies it (src/unnamed/part_000 lines
28-35): the caller also passes `isEqEnabled`, which the hook's
destructuring `{ fftSize, smoothing, volume, eqGains, eqPreGain }`
never reads. -/
structure GraphOptions where
  fftSize : Nat
  smoothing : ℚ
  volume : ℚ
  eqGains : List ℚ
  eqPreGain : ℚ
  isEqEnabled : Bool
deriving DecidableEq

/-- The `useRef` cells of one `useAudioGraph` instance:
`audioCtxRef` (modelled as the flag `hasCtxRef`, it only aliases the
global context), `srcNodeRef`, `gainRef`, `preGainRef`, `eqNodesRef`,
`analyserRef`. -/
structure ManagerState where
  hasCtxRef : Bool
  srcNode : Option Nat
  gain : Option Nat
  preGain : Option Nat
  eqNodes : List Nat
  analyser : Option Nat
deriving DecidableEq

/-- A freshly mounted `useAudioGraph` instance: every ref is null. -/
def ManagerState.init : ManagerState :=
  { hasCtxRef := false, srcNode := none, gain := none, preGain := none,
    eqNodes := [], analyser := none }

/-- `let src = MEDIA_SRC.get(audioEl); if (!src) { src =
GLOBAL_AUDIO_CTX.createMediaElementSource(audioEl); MEDIA_SRC.set(audioEl,
src); } srcNodeRef.current = src;` — the check, the creation and the
insert happen with no suspension point in between. -/
def stageSrc (el : Nat) (w : WebAudioState) (m : ManagerState) :
    Nat × WebAudioState × ManagerState :=
  match assocFind w.mediaSrc el with
  | some s => (s, w, { m with srcNode := some s })
  | none =>
    let p := w.allocNode .mediaSource
    (p.1,
     { p.2 with mediaSrc := (el, p.1) :: p.2.mediaSrc, srcCreated := el :: p.2.srcCreated },
     { m with srcNode := some p.1 })

/-- `if (!gainRef.current) { const g = GLOBAL_AUDIO_CTX.createGain();
g.gain.value = volume; gainRef.current = g; }` -/
def stageGain (opts : GraphOptions) (w : WebAudioState) (m : ManagerState) :
    WebAudioState × ManagerState :=
  match m.gain with
  | some _ => (w, m)
  | none =>
    let p := w.allocNode (.gainNode opts.volume)
    (p.2, { m with gain := some p.1 })

/-- `if (!preGainRef.current) { const g = GLOBAL_AUDIO_CTX.createGain();
g.gain.value = eqPreGain; preGainRef.current = g; }` -/
def stagePreGain (opts : GraphOptions) (w : WebAudioState) (m : ManagerState) :
    WebAudioState × ManagerState :=
  match m.preGain with
  | some _ => (w, m)
  | none =>
    let p := w.allocNode (.gainNode opts.eqPreGain)
    (p.2, { m with preGain := some p.1 })

/-- The nodes created by `EQ_FREQUENCIES.map((freq, i) => {...})` when
allocation starts at id `base`: band `i` gets id `base + i`, frequency
`EQ_FREQUENCIES[i]` and Q 4.31.  `createBiquadFilter()` is followed
immediately by `eq.type = "peaking"; eq.frequency.value = freq;
eq.Q.value = 4.31; eq.gain.value = eqGains[i] ?? 0;` — the
default-initialized node is never observable, so each allocation
carries the final field values. -/
def eqCreatedNodes (eqGains : List ℚ) (base : Nat) : List (Nat × NodeData) :=
  (List.range EQ_FREQUENCIES.length).map (fun i =>
    (base + i, NodeData.biquad .peaking (EQ_FREQUENCIES.getD i 0) 4.31 ((eqGains.get? i).getD 0)))

/-- `if (eqNodesRef.current.length === 0) { eqNodesRef.current =
EQ_FREQUENCIES.map(...) }` — all 31 bands are created in one step or
not at all.  The `map` performs one `createBiquadFilter` per entry, so
the 31 ids are drawn consecutively from the allocation counter and the
store receives the new nodes newest-first. -/
def stageEq (opts : GraphOptions) (w : WebAudioState) (m : ManagerState) :
    WebAudioState × ManagerState :=
  if m.eqNodes.isEmpty then
    ({ w with nextId := w.nextId + EQ_FREQUENCIES.length,
              nodes := (eqCreatedNodes opts.eqGains w.nextId).reverse ++ w.nodes },
     { m with eqNodes := (List.range EQ_FREQUENCIES.length).map (fun i => w.nextId + i) })
  else (w, m)

/-- `if (!analyserRef.current) { const an = GLOBAL_AUDIO_CTX.createAnalyser();
an.fftSize = fftSize; an.smoothingTimeConstant = smoothing;
analyserRef.current = an; }` -/
def stageAnalyser (opts : GraphOptions) (w : WebAudioState) (m : ManagerState) :
    WebAudioState × ManagerState :=
  match m.analyser with
  | some _ => (w, m)
  | none =>
    let p := w.allocNode (.analyser opts.fftSize opts.smoothing)
    (p.2, { m with analyser := some p.1 })

/-- The "(Re)connect all nodes" block (src/unnamed/part_001 lines
190-210): `srcNodeRef.current.disconnect()` (in try/catch), then
`nodes = [gainRef.current!, preGainRef.current!, ...eqNodesRef.current,
analyserRef.current!, GLOBAL_AUDIO_CTX.destination]`,
`srcNodeRef.current.connect(nodes[0])`, then the
disconnect-before-connect loop over consecutive pairs.  There is no
branch on any EQ-enabled flag: the band nodes are always part of the
chain. -/
def stageWire (src : Nat) (destId : Nat) (w : WebAudioState) (m : ManagerState) :
    WebAudioState :=
  let ns : List Nat := m.gain.getD 0 :: m.preGain.getD 0 :: m.eqNodes ++ [m.analyser.getD 0, destId]
  { w with edges := rewireChainEdges (edgesConnect (edgesDisconnect w.edges src) src (ns.headD 0)) ns }

/-- The part of `ensureGraph` after the (possible) `await resume()`:
source binding, lazy node creation, rewiring.  It contains no
suspension point, so the small-step system runs it atomically. -/
def ensureGraphBody (el : Nat) (opts : GraphOptions) (destId : Nat)
    (w : WebAudioState) (m : ManagerState) : WebAudioState × ManagerState :=
  let s1 := stageSrc el w m
  let s2 := stageGain opts s1.2.1 s1.2.2
  let s3 := stagePreGain opts s2.1 s2.2
  let s4 := stageEq opts s3.1 s3.2
  let s5 := stageAnalyser opts s4.1 s4.2
  (stageWire s1.1 destId s5.1 s5.2, s5.2)

/-- `if (GLOBAL_AUDIO_CTX.state === "suspended") await GLOBAL_AUDIO_CTX.resume();` -/
def resumeIfSuspended (w : WebAudioState) : WebAudioState :=
  match w.ctx with
  | some c => if c.suspended then { w with ctx := some { c with suspended := false } } else w
  | none => w

/-- Behaviour of the host environment: whether
`new (window.AudioContext || webkitAudioContext)()` succeeds, and
whether a newly created context starts suspended (autoplay policy). -/
structure HostEnv where
  canCreateCtx : Bool
  newCtxSuspended : Bool

/-- Failure of `ensureGraph`: the host cannot produce a processing
context (`new AudioContext()` throws). -/
inductive GraphError
  | contextUnavailable
deriving DecidableEq

/-- The sequential semantics of `ensureGraph` (src/unnamed/part_001
lines 139-211): early return when `audioRef.current` is null; lazily
create the global context (or fail with `contextUnavailable` before
mutating anything); set `audioCtxRef`; resume a suspended context; then
the body. -/
def ensureGraph (host : HostEnv) (audioEl : Option Nat) (opts : GraphOptions)
    (w : WebAudioState) (m : ManagerState) :
    Except GraphError (WebAudioState × ManagerState) :=
  match audioEl with
  | none => .ok (w, m)
  | some el =>
    match w.ctx with
    | some c =>
      .ok (ensureGraphBody el opts c.destId (resumeIfSuspended w)
            { m with hasCtxRef := true })
    | none =>
      if host.canCreateCtx then
        let p := w.allocNode .destination
        let c : AudioCtx := { suspended := host.newCtxSuspended, destId := p.1 }
        .ok (ensureGraphBody el opts c.destId
              (resumeIfSuspended { p.2 with ctx := some c })
              { m with hasCtxRef := true })
      else .error .contextUnavailable

/-- `useEffect(() => { if (gainRef.current) gainRef.current.gain.value
= volume; }, [volume])` — a guarded no-op while the node is missing. -/
def applyVolume (volume : ℚ) (w : WebAudioState) (m : ManagerState) : WebAudioState :=
  match m.gain with
  | some g => w.setNodeAt g (fun d => d.withGainParam volume)
  | none => w

/-- `useEffect(() => { if (preGainRef.current)
preGainRef.current.gain.value = eqPreGain; }, [eqPreGain])` -/
def applyPreGain (eqPreGain : ℚ) (w : WebAudioState) (m : ManagerState) : WebAudioState :=
  match m.preGain with
  | some g => w.setNodeAt g (fun d => d.withGainParam eqPreGain)
  | none => w

/-- The indexed `forEach` of the eq-gains effect. -/
def applyEqGainsAux (eqGains : List ℚ) : Nat → List Nat → WebAudioState → WebAudioState
  | _, [], w => w
  | i, n :: rest, w =>
    applyEqGainsAux eqGains (i + 1) rest
      (w.setNodeAt n (fun d => d.withGainParam ((eqGains.get? i).getD 0)))

/-- `useEffect(() => { eqNodesRef.current.forEach((eq, i) => { if (eq)
eq.gain.value = eqGains[i] ?? 0; }); }, [eqGains])` — iterates over the
ref'd nodes, a no-op while the array is empty. -/
def applyEqGains (eqGains : List ℚ) (w : WebAudioState) (m : ManagerState) : WebAudioState :=
  applyEqGainsAux eqGains 0 m.eqNodes w

/-- `useEffect(() => { if (analyserRef.current) {
analyserRef.current.fftSize = fftSize;
analyserRef.current.smoothingTimeConstant = smoothing; } },
[fftSize, smoothing])` -/
def applyAnalyserOpts (fftSize : Nat) (smoothing : ℚ) (w : WebAudioState)
    (m : ManagerState) : WebAudioState :=
  match m.analyser with
  | some a => w.setNodeAt a (fun d => d.withAnalyserOpts fftSize smoothing)
  | none => w

/-- The unmount cleanup (src/unnamed/part_001 lines 236-251):
disconnect `srcNodeRef`, `gainRef`, `preGainRef`, every eq node and
`analyserRef`, then null the refs (and empty the eq array).
`audioCtxRef`, the global context and the `MEDIA_SRC` table are not
touched; the context is not closed. -/
def cleanup (w : WebAudioState) (m : ManagerState) : WebAudioState × ManagerState :=
  let e1 := match m.srcNode with
    | some s => edgesDisconnect w.edges s
    | none => w.edges
  let e2 := match m.gain with
    | some g => edgesDisconnect e1 g
    | none => e1
  let e3 := match m.preGain with
    | some g => edgesDisconnect e2 g
    | none => e2
  let e4 := m.eqNodes.foldl (fun es n => edgesDisconnect es n) e3
  let e5 := match m.analyser with
    | some a => edgesDisconnect e4 a
    | none => e4
  ({ w with edges := e5 },
   { m with srcNode := none, gain := none, preGain := none, eqNodes := [], analyser := none })

/-- Reading `gainRef.current.gain.value` through the manager. -/
def volumeReading (w : WebAudioState) (m : ManagerState) : Option ℚ :=
  match m.gain with
  | some g =>
    match w.getNode g with
    | some (.gainNode v) => some v
    | _ => none
  | none => none

/-- Reading `preGainRef.current.gain.value` through the manager. -/
def preGainReading (w : WebAudioState) (m : ManagerState) : Option ℚ :=
  match m.preGain with
  | some g =>
    match w.getNode g with
    | some (.gainNode v) => some v
    | _ => none
  | none => none

/-- Reading the effective gain of filter band `i`
(`eqNodesRef.current[i].gain.value`). -/
def bandGainReading (w : WebAudioState) (m : ManagerState) (i : Nat) : Option ℚ :=
  match m.eqNodes.get? i with
  | some n =>
    match w.getNode n with
    | some (.biquad _ _ _ g) => some g
    | _ => none
  | none => none

/-- Reading the full record of filter band `i`. -/
def bandNodeReading (w : WebAudioState) (m : ManagerState) (i : Nat) : Option NodeData :=
  match m.eqNodes.get? i with
  | some n => w.getNode n
  | none => none

/-- Reading `analyserRef.current.{fftSize, smoothingTimeConstant}`. -/
def analyserReading (w : WebAudioState) (m : ManagerState) : Option (Nat × ℚ) :=
  match m.analyser with
  | some a =>
    match w.getNode a with
    | some (.analyser f s) => some (f, s)
    | _ => none
  | none => none

/-- The `<audio>` element as `togglePlay` sees it: its identity (the
`MEDIA_SRC` key) and its `paused` flag. -/
structure AudioEl where
  id : Nat
  paused : Bool
deriving DecidableEq

/-- The `SpectrumPlayer` UI state touched by `togglePlay`: the single
user-visible error-message slot `errMsg` and the `isPlaying` flag
(driven by the element's play/pause events). -/
structure PlayerUI where
  errMsg : String
  isPlaying : Bool
deriving DecidableEq

/-- Host behaviour of `audio.play()`: the returned promise either
resolves or rejects with a message (e.g. the autoplay policy). -/
inductive PlayOutcome
  | resolves
  | rejects (msg : String)

/-- Result of one `togglePlay` run.  `threw = true` means an exception
escaped `togglePlay` (nothing in it catches `ensureGraph` failures);
the remaining fields are the states after the run. -/
structure ToggleResult where
  threw : Bool
  audio : Option AudioEl
  ui : PlayerUI
  w : WebAudioState
  m : ManagerState
deriving DecidableEq

/-- `togglePlay` (src/unnamed/part_000 lines 93-111): early return on a
null element; `await ensureGraph()` with no try/catch around it — a
`contextUnavailable` failure propagates out and no later statement
runs; then `audio.play()` inside try/catch, a rejection being converted
into `setErrMsg(err?.message || "Failed to play()")` with the element
still paused; or `audio.pause()` when currently playing. -/
def togglePlay (host : HostEnv) (playOut : PlayOutcome) (audio : Option AudioEl)
    (ui : PlayerUI) (opts : GraphOptions) (w : WebAudioState) (m : ManagerState) :
    ToggleResult :=
  match audio with
  | none => ⟨false, none, ui, w, m⟩
  | some a =>
    match ensureGraph host (some a.id) opts w m with
    | .error _ => ⟨true, some a, ui, w, m⟩
    | .ok (w1, m1) =>
      if a.paused then
        match playOut with
        | .resolves => ⟨false, some { a with paused := false }, { ui with isPlaying := true }, w1, m1⟩
        | .rejects msg => ⟨false, some a, { ui with errMsg := msg }, w1, m1⟩
      else ⟨false, some { a with paused := true }, { ui with isPlaying := false }, w1, m1⟩

/-- A JavaScript number as `formatTime` needs it: NaN, ±Infinity, or a
finite value (modelled as an exact rational). -/
inductive JsNum
  | nan
  | posInf
  | negInf
  | finite (x : ℚ)

/-- `Number.isFinite` / global `isFinite` on a `JsNum`. -/
def JsNum.isFiniteNum : JsNum → Bool
  | .finite _ => true
  | _ => false

/-- The JS remainder operator `%` on finite values: truncated
remainder, `a - b * trunc(a / b)` (sign follows the dividend). -/
def jsRemainder (a b : ℚ) : ℚ :=
  a - b * ((a / b).num.tdiv ((a / b).den : Int) : ℚ)

/-- `String.prototype.padStart(2, "0")`: left-pad with zeros unless the
string is already at least 2 characters long. -/
def padStart2 (s : String) : String :=
  if 2 ≤ s.length then s else String.mk (List.replicate (2 - s.length) '0') ++ s

/-- `formatTime` (src/unnamed/part_003): `"00:00"` for non-finite
input, otherwise `Math.floor(sec / 60)` and `Math.floor(sec % 60)`,
each via `.toString().padStart(2, "0")`, joined by `":"`. -/
def formatTime (sec : JsNum) : String :=
  match sec with
  | .finite x =>
    let m := padStart2 (toString ⌊x / 60⌋)
    let s := padStart2 (toString ⌊jsRemainder x 60⌋)
    m ++ ":" ++ s
  | _ => "00:00"

/-- The eq-node ids allocated by the first `ensureGraph` run on a fresh
process (destination = 0, source = 1, gain = 2, pre-gain = 3). -/
def eqIds : List Nat :=
  [4, 5, 6, 7, 8, 9, 10, 11, 12, 13, 14, 15, 16, 17, 18, 19, 20, 21, 22, 23,
   24, 25, 26, 27, 28, 29, 30, 31, 32, 33, 34]

/-- The manager refs after the first `ensureGraph` run on a fresh
process. -/
def wiredManager : ManagerState :=
  { hasCtxRef := true, srcNode := some 1, gain := some 2, preGain := some 3,
    eqNodes := eqIds, analyser := some 35 }

/-- Tail of `chainPairs`: pairs `a` with the head of the rest. -/
def chainPairsAux (a : Nat) : List Nat → List (Nat × Nat)
  | [] => []
  | b :: rest => (a, b) :: chainPairsAux b rest

/-- Consecutive pairs of a list: the edges of a linear chain. -/
def chainPairs : List Nat → List (Nat × Nat)
  | [] => []
  | a :: rest => chainPairsAux a rest

/-- The full connection chain of the first run:
source → gain → pre-gain → band 0 … band 30 → analyser → destination. -/
def chainIds : List Nat := 1 :: 2 :: 3 :: eqIds ++ [35, 0]

/-- The edge list left by the wiring block of the first run (the last
connect performed sits at the head). -/
def wiredEdges : List (Nat × Nat) := (chainPairs chainIds).reverse

/-- The node store after the first `ensureGraph` run on a fresh
process, newest node first. -/
def nodesOf (opts : GraphOptions) : List (Nat × NodeData) :=
  (35, .analyser opts.fftSize opts.smoothing) :: (eqCreatedNodes opts.eqGains 4).reverse ++
  [(3, .gainNode opts.eqPreGain), (2, .gainNode opts.volume), (1, .mediaSource), (0, .destination)]

/-- The host state after a completed `ensureGraph` run on element `e`
of a fresh process, with node store `ns`. -/
def wiredW (ns : List (Nat × NodeData)) (e : Nat) : WebAudioState :=
  { ctx := some ⟨false, 0⟩, mediaSrc := [(e, 1)], nextId := 36, nodes := ns,
    edges := wiredEdges, srcCreated := [e] }

/-- The manager refs right after the global context was installed into
`audioCtxRef` but before any node ref is populated. -/
def mgrCtxOnly : ManagerState :=
  { hasCtxRef := true, srcNode := none, gain := none, preGain := none,
    eqNodes := [], analyser := none }

/-- The host state after the unmount cleanup of the first manager:
only the edges changed (everything was disconnected); context, side
table, node store and counter are untouched. -/
def cleanedW (ns : List (Nat × NodeData)) (e : Nat) : WebAudioState :=
  { ctx := some ⟨false, 0⟩, mediaSrc := [(e, 1)], nextId := 36, nodes := ns,
    edges := [], srcCreated := [e] }

/-- The eq-node ids allocated by a re-run of `ensureGraph` after the
first manager was disposed (gain = 36, pre-gain = 37). -/
def eqIds2 : List Nat :=
  [38, 39, 40, 41, 42, 43, 44, 45, 46, 47, 48, 49, 50, 51, 52, 53, 54, 55, 56,
   57, 58, 59, 60, 61, 62, 63, 64, 65, 66, 67, 68]

/-- The manager refs after a re-run of `ensureGraph` following
disposal: the source binding id 1 is reused, all other nodes are
fresh. -/
def wiredManager2 : ManagerState :=
  { hasCtxRef := true, srcNode := some 1, gain := some 36, preGain := some 37,
    eqNodes := eqIds2, analyser := some 69 }

/-- The chain established by the re-run. -/
def chainIds2 : List Nat := 1 :: 36 :: 37 :: eqIds2 ++ [69, 0]

/-- The edge list established by the re-run. -/
def wiredEdges2 : List (Nat × Nat) := (chainPairs chainIds2).reverse

/-- The node store after the re-run: fresh gain/pre-gain/band/analyser
nodes on top of the store `ns` left by the first run. -/
def nodesOf2 (opts : GraphOptions) (ns : List (Nat × NodeData)) : List (Nat × NodeData) :=
  (69, .analyser opts.fftSize opts.smoothing) :: (eqCreatedNodes opts.eqGains 38).reverse ++
  (37, .gainNode opts.eqPreGain) :: (36, .gainNode opts.volume) :: ns

/-- The host state after the re-run. -/
def wiredW2 (ns : List (Nat × NodeData)) (e : Nat) : WebAudioState :=
  { ctx := some ⟨false, 0⟩, mediaSrc := [(e, 1)], nextId := 70, nodes := ns,
    edges := wiredEdges2, srcCreated := [e] }

/-- Rendering of the claim: a decimal string left-padded with zeros to
width 2. -/
def leftPadZero2 (s : String) : String :=
  String.mk (List.replicate (2 - s.length) '0') ++ s

/-- A concrete option record with the equalizer toggled OFF. -/
def optsEqOff : GraphOptions :=
  { fftSize := 1024, smoothing := 7/10, volume := 9/10,
    eqGains := List.replicate 31 0, eqPreGain := 1, isEqEnabled := false }

/-- The edges of the state a graph-setup result carries (empty when the
setup failed). -/
def graphResultEdges (r : Except GraphError (WebAudioState × ManagerState)) :
    List (Nat × Nat) :=
  match r with
  | .ok p => p.1.edges
  | .error _ => []

/-- Progress of one in-flight `ensureGraph()` invocation.  `entry` is
before the first statement ran; `awaitingResume` is parked at
`await GLOBAL_AUDIO_CTX.resume()`; `done` completed the body;
`skipped` returned early on a null element; `failed` threw while
creating the context. -/
inductive CallPhase
  | entry
  | awaitingResume
  | done
  | skipped
  | failed
deriving DecidableEq

/-- One in-flight `ensureGraph()` invocation: the index of the
`useAudioGraph` instance whose refs it uses, the `audioRef.current`
it observes, the `GraphOptions` captured by its closure, and its
progress. -/
structure CallState where
  mgr : Nat
  el : Option Nat
  opts : GraphOptions
  phase : CallPhase
deriving DecidableEq

/-- The whole interleaving system: the shared Web Audio state, the
`useAudioGraph` instances, and the in-flight calls. -/
structure SysState where
  w : WebAudioState
  mgrs : List ManagerState
  calls : List CallState
deriving DecidableEq

/-- Record call `i` as having reached phase `ph` (its other fields are
those of `c`). -/
def setPhase (s : SysState) (i : Nat) (c : CallState) (ph : CallPhase) : SysState :=
  { s with calls := s.calls.set i { c with phase := ph } }

/-- `audioCtxRef.current = GLOBAL_AUDIO_CTX` on manager `i`. -/
def setMgrCtxRef (s : SysState) (i : Nat) : SysState :=
  { s with mgrs := s.mgrs.set i { s.mgrs.getD i ManagerState.init with hasCtxRef := true } }

/-- Run the post-resume body of call `i` (element `el`, destination
`destId`) atomically and mark the call done. -/
def runBodyIn (s : SysState) (c : CallState) (i : Nat) (el : Nat) (destId : Nat) : SysState :=
  let r := ensureGraphBody el c.opts destId s.w (s.mgrs.getD c.mgr ManagerState.init)
  setPhase { s with w := r.1, mgrs := s.mgrs.set c.mgr r.2 } i c .done

/-- One atomic step of call `i`.  From `entry` the call runs
synchronously up to the `await resume()` — parking there when the
context is suspended — or, when no await is needed, through the whole
body; from `awaitingResume` the resume completes and the body runs.
This is exactly the single-threaded async semantics of the source:
the only suspension point of `ensureGraph` is the awaited resume. -/
def stepCall (host : HostEnv) (s : SysState) (i : Nat) : SysState :=
  match s.calls.get? i with
  | none => s
  | some c =>
    match c.phase with
    | .entry =>
      match c.el with
      | none => setPhase s i c .skipped
      | some el =>
        match s.w.ctx with
        | some ctx =>
          let s1 := setMgrCtxRef s c.mgr
          if ctx.suspended then setPhase s1 i c .awaitingResume
          else runBodyIn s1 c i el ctx.destId
        | none =>
          if host.canCreateCtx then
            let p := s.w.allocNode .destination
            let ctx : AudioCtx := { suspended := host.newCtxSuspended, destId := p.1 }
            let s1 := setMgrCtxRef { s with w := { p.2 with ctx := some ctx } } c.mgr
            if ctx.suspended then setPhase s1 i c .awaitingResume
            else runBodyIn s1 c i el ctx.destId
          else setPhase s i c .failed
    | .awaitingResume =>
      match c.el, s.w.ctx with
      | some el, some ctx => runBodyIn { s with w := resumeIfSuspended s.w } c i el ctx.destId
      | _, _ => s
    | _ => s

/-- Execute a schedule: an arbitrary interleaving of the atomic
segments of the in-flight calls. -/
def runCalls (host : HostEnv) : SysState → List Nat → SysState
  | s, [] => s
  | s, i :: rest => runCalls host (stepCall host s i) rest

/-- The source-creation invariant: the number of
`createMediaElementSource` calls ever made for an element equals 1 or
0 according to whether the element is bound in the `MEDIA_SRC` table.
The table is checked before creation and populated in the same atomic
segment, so the count can never exceed one. -/
def sourceInvariant (w : WebAudioState) : Prop :=
  ∀ e, w.srcCreated.count e = if (assocFind w.mediaSrc e).isSome then 1 else 0

/-- The two-part invariant of the at-most-one-source-binding claim:
the creation count matches the table, and every completed call left
its element bound. -/
def c2Inv (s : SysState) : Prop :=
  sourceInvariant s.w ∧
  ∀ c ∈ s.calls, c.phase = .done → ∃ e, c.el = some e ∧ (assocFind s.w.mediaSrc e).isSome

/-- The host state holding only the freshly created context (suspended
flag `b`) and its destination node 0. -/
def ctxOnlyW (b : Bool) : WebAudioState :=
  { ctx := some ⟨b, 0⟩, mediaSrc := [], nextId := 1, nodes := [(0, .destination)],
    edges := [], srcCreated := [] }

/-- The wiring invariant of the single-manager, single-element system:
every call targets manager 0 and element `e` and never skips or fails,
and the shared state is in one of three shapes — pristine (no call ran
yet), context-created (no body ran yet), or fully wired. -/
def wireInv (e : Nat) (s : SysState) : Prop :=
  (∀ c ∈ s.calls, c.mgr = 0 ∧ c.el = some e ∧
     (c.phase = .entry ∨ c.phase = .awaitingResume ∨ c.phase = .done)) ∧
  ((s.w = WebAudioState.init ∧ s.mgrs = [ManagerState.init] ∧
      ∀ c ∈ s.calls, c.phase = .entry) ∨
   (∃ b, s.w = ctxOnlyW b ∧ s.mgrs = [mgrCtxOnly] ∧
      ∀ c ∈ s.calls, c.phase ≠ .done) ∨
   (∃ ns, s.w = wiredW ns e ∧ s.mgrs = [wiredManager]))

/-- The chain is wired exactly once: the edges are exactly those of the
single chain, each chain node has exactly one outgoing connection and it
goes to its successor, and exactly one edge reaches the destination
(node 0). -/
def chainWiredOnce (w : WebAudioState) : Prop :=
  w.edges = wiredEdges ∧
  (∀ j < chainIds.length - 1,
    w.edges.countP (fun p => p.1 == chainIds.getD j 0) = 1 ∧
    (chainIds.getD j 0, chainIds.getD (j + 1) 0) ∈ w.edges) ∧
  w.edges.countP (fun p => p.2 == 0) = 1

/-- Outcome required of any interleaving of `ensureGraph` calls: no
call ever throws or skips, and once any call has completed the shared
graph is the single correctly wired chain. -/
def c3Post (sf : SysState) : Prop :=
  (∀ c ∈ sf.calls, c.phase ≠ .failed ∧ c.phase ≠ .skipped) ∧
  ((∃ c ∈ sf.calls, c.phase = .done) → chainWiredOnce sf.w)

set_option maxRecDepth 8000 in
set_option maxHeartbeats 1600000 in
/-- The post-resume part of `ensureGraph` run on the state holding
only the freshly created context (destination node 0): it binds the
source, creates every node and wires the full chain. -/
lemma ensureGraphBody_ctxOnly (e : Nat) (opts : GraphOptions) (c0 : Option AudioCtx) :
    ensureGraphBody e opts 0
      { ctx := c0, mediaSrc := [], nextId := 1, nodes := [(0, .destination)],
        edges := [], srcCreated := [] }
      mgrCtxOnly
    = ({ ctx := c0, mediaSrc := [(e, 1)], nextId := 36, nodes := nodesOf opts,
         edges := wiredEdges, srcCreated := [e] }, wiredManager) := by
  have h1 : stageSrc e
      { ctx := c0, mediaSrc := [], nextId := 1, nodes := [(0, .destination)],
        edges := [], srcCreated := [] } mgrCtxOnly
      = (1,
         { ctx := c0, mediaSrc := [(e, 1)], nextId := 2,
           nodes := [(1, .mediaSource), (0, .destination)], edges := [], srcCreated := [e] },
         { hasCtxRef := true, srcNode := some 1, gain := none, preGain := none,
           eqNodes := [], analyser := none }) := rfl
  have h2 : stageGain opts
      { ctx := c0, mediaSrc := [(e, 1)], nextId := 2,
        nodes := [(1, .mediaSource), (0, .destination)], edges := [], srcCreated := [e] }
      { hasCtxRef := true, srcNode := some 1, gain := none, preGain := none,
        eqNodes := [], analyser := none }
      = ({ ctx := c0, mediaSrc := [(e, 1)], nextId := 3,
           nodes := [(2, .gainNode opts.volume), (1, .mediaSource), (0, .destination)],
           edges := [], srcCreated := [e] },
         { hasCtxRef := true, srcNode := some 1, gain := some 2, preGain := none,
           eqNodes := [], analyser := none }) := rfl
  have h3 : stagePreGain opts
      { ctx := c0, mediaSrc := [(e, 1)], nextId := 3,
        nodes := [(2, .gainNode opts.volume), (1, .mediaSource), (0, .destination)],
        edges := [], srcCreated := [e] }
      { hasCtxRef := true, srcNode := some 1, gain := some 2, preGain := none,
        eqNodes := [], analyser := none }
      = ({ ctx := c0, mediaSrc := [(e, 1)], nextId := 4,
           nodes := [(3, .gainNode opts.eqPreGain), (2, .gainNode opts.volume),
                     (1, .mediaSource), (0, .destination)],
           edges := [], srcCreated := [e] },
         { hasCtxRef := true, srcNode := some 1, gain := some 2, preGain := some 3,
           eqNodes := [], analyser := none }) := rfl
  have h4 : stageEq opts
      { ctx := c0, mediaSrc := [(e, 1)], nextId := 4,
        nodes := [(3, .gainNode opts.eqPreGain), (2, .gainNode opts.volume),
                  (1, .mediaSource), (0, .destination)],
        edges := [], srcCreated := [e] }
      { hasCtxRef := true, srcNode := some 1, gain := some 2, preGain := some 3,
        eqNodes := [], analyser := none }
      = ({ ctx := c0, mediaSrc := [(e, 1)], nextId := 35,
           nodes := (eqCreatedNodes opts.eqGains 4).reverse ++
             [(3, .gainNode opts.eqPreGain), (2, .gainNode opts.volume),
              (1, .mediaSource), (0, .destination)],
           edges := [], srcCreated := [e] },
         { hasCtxRef := true, srcNode := some 1, gain := some 2, preGain := some 3,
           eqNodes := eqIds, analyser := none }) := rfl
  have h5 : stageAnalyser opts
      { ctx := c0, mediaSrc := [(e, 1)], nextId := 35,
        nodes := (eqCreatedNodes opts.eqGains 4).reverse ++
          [(3, .gainNode opts.eqPreGain), (2, .gainNode opts.volume),
           (1, .mediaSource), (0, .destination)],
        edges := [], srcCreated := [e] }
      { hasCtxRef := true, srcNode := some 1, gain := some 2, preGain := some 3,
        eqNodes := eqIds, analyser := none }
      = ({ ctx := c0, mediaSrc := [(e, 1)], nextId := 36, nodes := nodesOf opts,
           edges := [], srcCreated := [e] }, wiredManager) := rfl
  have hedges : rewireChainEdges (edgesConnect (edgesDisconnect [] 1) 1 2)
      (2 :: 3 :: eqIds ++ [35, 0]) = wiredEdges := by decide
  have h6 : stageWire 1 0
      { ctx := c0, mediaSrc := [(e, 1)], nextId := 36, nodes := nodesOf opts,
        edges := [], srcCreated := [e] } wiredManager
      = { ctx := c0, mediaSrc := [(e, 1)], nextId := 36, nodes := nodesOf opts,
          edges := wiredEdges, srcCreated := [e] } := by
    simp [stageWire, wiredManager]
    exact hedges
  simp [ensureGraphBody, h1, h2, h3, h4, h5, h6]

set_option maxRecDepth 8000 in
set_option maxHeartbeats 1600000 in
/-- First `ensureGraph` run on a fresh process: computes the fully
wired state. -/
theorem ensureGraph_firstRun (host : HostEnv) (e : Nat) (opts : GraphOptions)
    (hc : host.canCreateCtx = true) :
    ensureGraph host (some e) opts WebAudioState.init ManagerState.init
      = .ok (wiredW (nodesOf opts) e, wiredManager) := by
  obtain ⟨cc, sus⟩ := host
  cases hc
  have hbody := ensureGraphBody_ctxOnly e opts (some ⟨false, 0⟩)
  cases sus <;>
    simpa [ensureGraph, WebAudioState.init, WebAudioState.allocNode, ManagerState.init,
      resumeIfSuspended, mgrCtxOnly, wiredW] using hbody

set_option maxRecDepth 8000 in
/-- Rewiring an already fully wired chain reproduces exactly the same
edge list: every chain node is disconnected before it is reconnected,
so no duplicate edge can appear. -/
lemma rewire_wired_idem :
    rewireChainEdges (edgesConnect (edgesDisconnect wiredEdges 1) 1 2)
      (2 :: 3 :: eqIds ++ [35, 0]) = wiredEdges := by decide

set_option maxRecDepth 8000 in
set_option maxHeartbeats 1600000 in
/-- Running the post-resume body again on the fully wired state changes
nothing: the source binding is found in the table, every node ref is
already populated, and the rewiring reproduces the same edges. -/
lemma ensureGraphBody_idem (e : Nat) (opts : GraphOptions) (ns : List (Nat × NodeData)) :
    ensureGraphBody e opts 0 (wiredW ns e) wiredManager = (wiredW ns e, wiredManager) := by
  have h1 : stageSrc e (wiredW ns e) wiredManager = (1, wiredW ns e, wiredManager) := by
    simp [stageSrc, assocFind, wiredW, wiredManager]
  have h2 : stageGain opts (wiredW ns e) wiredManager = (wiredW ns e, wiredManager) := rfl
  have h3 : stagePreGain opts (wiredW ns e) wiredManager = (wiredW ns e, wiredManager) := rfl
  have h4 : stageEq opts (wiredW ns e) wiredManager = (wiredW ns e, wiredManager) := rfl
  have h5 : stageAnalyser opts (wiredW ns e) wiredManager = (wiredW ns e, wiredManager) := rfl
  have h6 : stageWire 1 0 (wiredW ns e) wiredManager = wiredW ns e := by
    simp [stageWire, wiredManager, wiredW]
    exact rewire_wired_idem
  simp [ensureGraphBody, h1, h2, h3, h4, h5, h6]

set_option maxRecDepth 8000 in
set_option maxHeartbeats 1600000 in
/-- `ensureGraph` is idempotent on the fully wired state. -/
lemma ensureGraph_idem (host : HostEnv) (e : Nat) (opts : GraphOptions)
    (ns : List (Nat × NodeData)) :
    ensureGraph host (some e) opts (wiredW ns e) wiredManager
      = .ok (wiredW ns e, wiredManager) := by
  have hbody := ensureGraphBody_idem e opts ns
  simpa [ensureGraph, wiredW, resumeIfSuspended, wiredManager] using hbody

set_option maxRecDepth 8000 in
/-- Disconnecting the source and every node of the first manager
removes every edge of the wired chain. -/
lemma cleanup_wired_edges :
    edgesDisconnect (List.foldl (fun es n => edgesDisconnect es n)
      (edgesDisconnect (edgesDisconnect (edgesDisconnect wiredEdges 1) 2) 3) eqIds) 35
    = [] := by decide

set_option maxRecDepth 8000 in
set_option maxHeartbeats 1600000 in
/-- Unmount cleanup of the wired manager: all edges are dropped, the
refs are nulled, and the context, the `MEDIA_SRC` table, the node
store and the creation log are untouched. -/
lemma cleanup_wired (ns : List (Nat × NodeData)) (e : Nat) :
    cleanup (wiredW ns e) wiredManager = (cleanedW ns e, mgrCtxOnly) := by
  simp [cleanup, wiredManager, wiredW, cleanedW, mgrCtxOnly]
  exact cleanup_wired_edges

set_option maxRecDepth 8000 in
/-- The re-run wiring from an empty edge list. -/
lemma rewire_second :
    rewireChainEdges (edgesConnect (edgesDisconnect [] 1) 1 36)
      (36 :: 37 :: eqIds2 ++ [69, 0]) = wiredEdges2 := by decide

set_option maxRecDepth 8000 in
set_option maxHeartbeats 1600000 in
/-- The post-resume body run on the disposed state: the source binding
is found in the table (no second `createMediaElementSource`), and
fresh gain, pre-gain, band and analyser nodes are created and wired. -/
lemma ensureGraphBody_cleaned (e : Nat) (opts : GraphOptions) (ns : List (Nat × NodeData)) :
    ensureGraphBody e opts 0 (cleanedW ns e) mgrCtxOnly
      = (wiredW2 (nodesOf2 opts ns) e, wiredManager2) := by
  have h1 : stageSrc e (cleanedW ns e) mgrCtxOnly
      = (1, cleanedW ns e,
         { hasCtxRef := true, srcNode := some 1, gain := none, preGain := none,
           eqNodes := [], analyser := none }) := by
    simp [stageSrc, assocFind, cleanedW, mgrCtxOnly]
  have h2 : stageGain opts (cleanedW ns e)
      { hasCtxRef := true, srcNode := some 1, gain := none, preGain := none,
        eqNodes := [], analyser := none }
      = ({ ctx := some ⟨false, 0⟩, mediaSrc := [(e, 1)], nextId := 37,
           nodes := (36, .gainNode opts.volume) :: ns, edges := [], srcCreated := [e] },
         { hasCtxRef := true, srcNode := some 1, gain := some 36, preGain := none,
           eqNodes := [], analyser := none }) := rfl
  have h3 : stagePreGain opts
      { ctx := some ⟨false, 0⟩, mediaSrc := [(e, 1)], nextId := 37,
        nodes := (36, .gainNode opts.volume) :: ns, edges := [], srcCreated := [e] }
      { hasCtxRef := true, srcNode := some 1, gain := some 36, preGain := none,
        eqNodes := [], analyser := none }
      = ({ ctx := some ⟨false, 0⟩, mediaSrc := [(e, 1)], nextId := 38,
           nodes := (37, .gainNode opts.eqPreGain) :: (36, .gainNode opts.volume) :: ns,
           edges := [], srcCreated := [e] },
         { hasCtxRef := true, srcNode := some 1, gain := some 36, preGain := some 37,
           eqNodes := [], analyser := none }) := rfl
  have h4 : stageEq opts
      { ctx := some ⟨false, 0⟩, mediaSrc := [(e, 1)], nextId := 38,
        nodes := (37, .gainNode opts.eqPreGain) :: (36, .gainNode opts.volume) :: ns,
        edges := [], srcCreated := [e] }
      { hasCtxRef := true, srcNode := some 1, gain := some 36, preGain := some 37,
        eqNodes := [], analyser := none }
      = ({ ctx := some ⟨false, 0⟩, mediaSrc := [(e, 1)], nextId := 69,
           nodes := (eqCreatedNodes opts.eqGains 38).reverse ++
             (37, .gainNode opts.eqPreGain) :: (36, .gainNode opts.volume) :: ns,
           edges := [], srcCreated := [e] },
         { hasCtxRef := true, srcNode := some 1, gain := some 36, preGain := some 37,
           eqNodes := eqIds2, analyser := none }) := rfl
  have h5 : stageAnalyser opts
      { ctx := some ⟨false, 0⟩, mediaSrc := [(e, 1)], nextId := 69,
        nodes := (eqCreatedNodes opts.eqGains 38).reverse ++
          (37, .gainNode opts.eqPreGain) :: (36, .gainNode opts.volume) :: ns,
        edges := [], srcCreated := [e] }
      { hasCtxRef := true, srcNode := some 1, gain := some 36, preGain := some 37,
        eqNodes := eqIds2, analyser := none }
      = ({ ctx := some ⟨false, 0⟩, mediaSrc := [(e, 1)], nextId := 70,
           nodes := nodesOf2 opts ns, edges := [], srcCreated := [e] }, wiredManager2) := rfl
  have h6 : stageWire 1 0
      { ctx := some ⟨false, 0⟩, mediaSrc := [(e, 1)], nextId := 70,
        nodes := nodesOf2 opts ns, edges := [], srcCreated := [e] } wiredManager2
      = wiredW2 (nodesOf2 opts ns) e := by
    simp [stageWire, wiredManager2, wiredW2]
    exact rewire_second
  simp [ensureGraphBody, h1, h2, h3, h4, h5, h6]

set_option maxRecDepth 8000 in
set_option maxHeartbeats 1600000 in
/-- Re-running `ensureGraph` after disposal: the existing context and
source binding are reused, fresh gain/band/analyser nodes are built. -/
lemma ensureGraph_secondRun (host : HostEnv) (e : Nat) (opts : GraphOptions)
    (ns : List (Nat × NodeData)) :
    ensureGraph host (some e) opts (cleanedW ns e) mgrCtxOnly
      = .ok (wiredW2 (nodesOf2 opts ns) e, wiredManager2) := by
  have hbody := ensureGraphBody_cleaned e opts ns
  simpa [ensureGraph, cleanedW, resumeIfSuspended, mgrCtxOnly] using hbody

/-- Updating node `n` changes only the store entry of `n`, mapping its
value. -/
lemma assocFind_map_update (l : List (Nat × NodeData)) (n : Nat) (f : NodeData → NodeData)
    (k : Nat) :
    assocFind (l.map (fun p => (p.1, if p.1 = n then f p.2 else p.2))) k
      = if k = n then (assocFind l n).map f else assocFind l k := by
  induction l with
  | nil => simp [assocFind]
  | cons hd tl ih =>
    obtain ⟨a, b⟩ := hd
    by_cases han : a = n <;> by_cases hak : a = k <;>
      simp_all [assocFind] <;> simp_all [eq_comm]

/-- `setNodeAt` read back. -/
lemma getNode_setNodeAt (w : WebAudioState) (n : Nat) (f : NodeData → NodeData) (k : Nat) :
    ((w.setNodeAt n f).getNode k) = if k = n then (w.getNode n).map f else w.getNode k := by
  simp [WebAudioState.setNodeAt, WebAudioState.getNode, assocFind_map_update]

/-- `setNodeAt` touches no other field. -/
lemma setNodeAt_frame (w : WebAudioState) (n : Nat) (f : NodeData → NodeData) :
    (w.setNodeAt n f).ctx = w.ctx ∧ (w.setNodeAt n f).mediaSrc = w.mediaSrc ∧
    (w.setNodeAt n f).nextId = w.nextId ∧ (w.setNodeAt n f).edges = w.edges ∧
    (w.setNodeAt n f).srcCreated = w.srcCreated := by
  simp [WebAudioState.setNodeAt]

/-- The eq-gains effect leaves nodes outside the band id list alone. -/
lemma applyEqGainsAux_getNode_notMem (L : List ℚ) :
    ∀ (ids : List Nat) (j : Nat) (w : WebAudioState) (n : Nat), n ∉ ids →
      (applyEqGainsAux L j ids w).getNode n = w.getNode n := by
  intro ids
  induction ids with
  | nil => intro j w n _; rfl
  | cons id0 rest ih =>
    intro j w n hn
    simp only [List.mem_cons, not_or] at hn
    simp only [applyEqGainsAux]
    rw [ih (j + 1) _ n hn.2]
    rw [getNode_setNodeAt]
    simp [hn.1]

/-- The eq-gains effect writes band `k`'s node with `eqGains[j+k] ?? 0`. -/
lemma applyEqGainsAux_getNode (L : List ℚ) :
    ∀ (ids : List Nat) (j k : Nat) (n : Nat) (w : WebAudioState), ids.Nodup →
      ids.get? k = some n →
      (applyEqGainsAux L j ids w).getNode n
        = (w.getNode n).map (fun d => d.withGainParam ((L.get? (j + k)).getD 0)) := by
  intro ids
  induction ids with
  | nil => intro j k n w _ h; simp at h
  | cons id0 rest ih =>
    intro j k n w hnodup hget
    rw [List.nodup_cons] at hnodup
    cases k with
    | zero =>
      rw [List.get?_cons_zero] at hget
      cases hget
      simp only [applyEqGainsAux]
      rw [applyEqGainsAux_getNode_notMem L rest (j + 1) _ id0 hnodup.1]
      simp [getNode_setNodeAt]
    | succ k =>
      rw [List.get?_cons_succ] at hget
      have hne : n ≠ id0 := by
        intro hcontra
        exact hnodup.1 (hcontra ▸ List.get?_mem hget)
      simp only [applyEqGainsAux]
      rw [ih (j + 1) k n _ hnodup.2 hget]
      rw [getNode_setNodeAt]
      have harith : j + 1 + k = j + (k + 1) := by omega
      simp [hne, harith]

/-- Setting index `i` of a list then reading it back. -/
lemma get?_set_self (l : List ℚ) : ∀ (i : Nat) (v : ℚ), i < l.length →
    (l.set i v).get? i = some v := by
  induction l with
  | nil => intro i v h; simp at h
  | cons hd tl ih =>
    intro i v h
    cases i with
    | zero => rfl
    | succ i => exact ih i v (Nat.lt_of_succ_lt_succ h)

/-- Index lookup into the first run's band id list. -/
lemma eqIds_get?_eq : ∀ i, i < 31 → eqIds.get? i = some (4 + i) := by decide

set_option maxRecDepth 4000 in
/-- The first run's gain node carries the volume current at creation. -/
lemma wired_getNode_gain (opts : GraphOptions) (e : Nat) :
    (wiredW (nodesOf opts) e).getNode 2 = some (.gainNode opts.volume) := rfl

set_option maxRecDepth 4000 in
/-- The first run's pre-gain node carries the pre-gain current at
creation. -/
lemma wired_getNode_preGain (opts : GraphOptions) (e : Nat) :
    (wiredW (nodesOf opts) e).getNode 3 = some (.gainNode opts.eqPreGain) := rfl

set_option maxRecDepth 4000 in
/-- The first run's analyser node carries the fft size and smoothing
current at creation. -/
lemma wired_getNode_analyser (opts : GraphOptions) (e : Nat) :
    (wiredW (nodesOf opts) e).getNode 35 = some (.analyser opts.fftSize opts.smoothing) := rfl

set_option maxRecDepth 4000 in
set_option maxHeartbeats 1600000 in
/-- The first run's band `i` is a peaking filter at the table frequency
with Q 4.31 and gain `eqGains[i] ?? 0`. -/
lemma wired_getNode_band (opts : GraphOptions) (e : Nat) :
    ∀ i, i < 31 → (wiredW (nodesOf opts) e).getNode (4 + i)
      = some (.biquad .peaking (EQ_FREQUENCIES.getD i 0) 4.31 ((opts.eqGains.get? i).getD 0)) := by
  intro i hi
  interval_cases i <;> rfl

/-- Band gain read back from the first run's state. -/
lemma wired_bandGainReading (opts : GraphOptions) (e : Nat) :
    ∀ i, i < 31 → bandGainReading (wiredW (nodesOf opts) e) wiredManager i
      = some ((opts.eqGains.get? i).getD 0) := by
  intro i hi
  have hb := wired_getNode_band opts e i hi
  have hg : wiredManager.eqNodes.get? i = some (4 + i) := eqIds_get?_eq i hi
  simp only [bandGainReading, hg, hb]

/-- The code's `padStart(2, "0")` agrees with zero-padding to width 2. -/
lemma padStart2_eq (s : String) : padStart2 s = leftPadZero2 s := by
  unfold padStart2 leftPadZero2
  split
  · rename_i h
    rw [Nat.sub_eq_zero_of_le h]
    cases s
    rfl
  · rfl

/-- C10: `formatTime` returns `"00:00"` for every non-finite input,
and for every finite input `sec` returns `floor(sec / 60)` and
`floor(sec % 60)` (the source language's truncated remainder), each
rendered as a decimal string left-padded with zeros to width 2 and
joined by `":"`. -/
theorem c10_formatTime_spec :
    formatTime .nan = "00:00" ∧ formatTime .posInf = "00:00" ∧ formatTime .negInf = "00:00" ∧
    ∀ x : ℚ, formatTime (.finite x)
      = leftPadZero2 (toString ⌊x / 60⌋) ++ ":" ++ leftPadZero2 (toString ⌊jsRemainder x 60⌋) := by
  refine ⟨rfl, rfl, rfl, fun x => ?_⟩
  simp only [formatTime, padStart2_eq]

set_option maxRecDepth 8000 in
/-- C1 (counterexample): with `isEqEnabled = false` the claim predicts
that the pre-gain node (id 3) is connected directly to the analysis
node (id 35) and the filter-band segment is skipped; instead the code
connects pre-gain to filter-band 0 (id 4) and never connects pre-gain
to the analyser. -/
theorem c1_counterexample :
    (3, 4) ∈ graphResultEdges
      (ensureGraph ⟨true, false⟩ (some 0) optsEqOff WebAudioState.init ManagerState.init) ∧
    (3, 35) ∉ graphResultEdges
      (ensureGraph ⟨true, false⟩ (some 0) optsEqOff WebAudioState.init ManagerState.init) := by
  rw [ensureGraph_firstRun ⟨true, false⟩ 0 optsEqOff rfl]
  decide

/-- C1 (amended): `ensureGraph` ignores the equalizer-enabled flag
entirely: for every option record — `isEqEnabled` true or false — the
established connection chain is the full
source → gain → pre-gain → band 0 … band 30 → analyser → destination
chain, and the pre-gain node is never connected directly to the
analysis node. -/
theorem c1_amended_full_chain (host : HostEnv) (e : Nat) (opts : GraphOptions)
    (hc : host.canCreateCtx = true) :
    ∃ w1 m1, ensureGraph host (some e) opts WebAudioState.init ManagerState.init
        = .ok (w1, m1) ∧
      m1 = wiredManager ∧
      w1.edges = (chainPairs (1 :: 2 :: 3 :: eqIds ++ [35, 0])).reverse ∧
      (3, 4) ∈ w1.edges ∧ (3, 35) ∉ w1.edges := by
  refine ⟨wiredW (nodesOf opts) e, wiredManager, ensureGraph_firstRun host e opts hc,
    rfl, rfl, ?_, ?_⟩
  · show (3, 4) ∈ wiredEdges
    decide
  · show (3, 35) ∉ wiredEdges
    decide

/-- Witness for the amended C1 theorem at a concrete input. -/
theorem c1_amended_full_chain_witness :
    ∃ w1 m1, ensureGraph ⟨true, true⟩ (some 0) optsEqOff WebAudioState.init ManagerState.init
        = .ok (w1, m1) ∧
      m1 = wiredManager ∧
      w1.edges = (chainPairs (1 :: 2 :: 3 :: eqIds ++ [35, 0])).reverse ∧
      (3, 4) ∈ w1.edges ∧ (3, 35) ∉ w1.edges :=
  c1_amended_full_chain ⟨true, true⟩ 0 optsEqOff rfl

/-- C6 (counterexample): the claim predicts that a `ContextUnavailable`
failure of `ensureGraph` is recovered inside `togglePlay` and converted
into the user-visible error-message slot; instead the exception escapes
`togglePlay` uncaught and the message slot is left empty. -/
theorem c6_counterexample :
    (togglePlay ⟨false, false⟩ .resolves (some ⟨0, true⟩) ⟨"", false⟩ optsEqOff
      WebAudioState.init ManagerState.init).threw = true ∧
    (togglePlay ⟨false, false⟩ .resolves (some ⟨0, true⟩) ⟨"", false⟩ optsEqOff
      WebAudioState.init ManagerState.init).ui.errMsg = "" := by
  constructor <;> rfl

/-- C6 (amended): when the host cannot produce a processing context,
the `ensureGraph` call inside `togglePlay` fails with
`contextUnavailable`; the failure is reported upward without automatic
retry, but it is NOT recovered inside `togglePlay`: the exception
escapes, and the error-message slot, the transport state and the graph
state are all left unchanged. -/
theorem c6_amended_ctx_unavailable (host : HostEnv) (playOut : PlayOutcome) (a : AudioEl)
    (ui : PlayerUI) (opts : GraphOptions) (w : WebAudioState) (m : ManagerState)
    (hc : host.canCreateCtx = false) (hctx : w.ctx = none) :
    togglePlay host playOut (some a) ui opts w m
      = { threw := true, audio := some a, ui := ui, w := w, m := m } := by
  simp [togglePlay, ensureGraph, hctx, hc]

/-- Witness for the amended C6 theorem at a concrete input. -/
theorem c6_amended_ctx_unavailable_witness :
    togglePlay ⟨false, true⟩ .resolves (some ⟨7, true⟩) ⟨"", false⟩ optsEqOff
        WebAudioState.init ManagerState.init
      = { threw := true, audio := some ⟨7, true⟩, ui := ⟨"", false⟩,
          w := WebAudioState.init, m := ManagerState.init } :=
  c6_amended_ctx_unavailable ⟨false, true⟩ .resolves ⟨7, true⟩ ⟨"", false⟩ optsEqOff
    WebAudioState.init ManagerState.init rfl rfl

/-- C9: setting the volume to 0 sets the output gain node's multiplier
to 0 and changes nothing else: the context, the side table, the edges,
the creation log, and every node other than the gain node — in
particular the pre-gain node and every per-band filter gain — are
unchanged. -/
theorem c9_volume_zero_isolated (w : WebAudioState) (m : ManagerState) (gid : Nat) (v0 : ℚ)
    (hg : m.gain = some gid) (hnode : w.getNode gid = some (.gainNode v0))
    (hpre : m.preGain ≠ some gid) (hbands : gid ∉ m.eqNodes) :
    volumeReading (applyVolume 0 w m) m = some 0 ∧
    preGainReading (applyVolume 0 w m) m = preGainReading w m ∧
    (∀ i, bandGainReading (applyVolume 0 w m) m i = bandGainReading w m i) ∧
    (applyVolume 0 w m).ctx = w.ctx ∧
    (applyVolume 0 w m).mediaSrc = w.mediaSrc ∧
    (applyVolume 0 w m).edges = w.edges ∧
    (applyVolume 0 w m).srcCreated = w.srcCreated ∧
    (∀ n, n ≠ gid → (applyVolume 0 w m).getNode n = w.getNode n) := by
  have happly : applyVolume 0 w m = w.setNodeAt gid (fun d => d.withGainParam 0) := by
    simp only [applyVolume, hg]
  rw [happly]
  refine ⟨?_, ?_, ?_, ?_, ?_, ?_, ?_, ?_⟩
  · simp [volumeReading, hg, getNode_setNodeAt, hnode, NodeData.withGainParam]
  · cases hm : m.preGain with
    | none => simp only [preGainReading, hm]
    | some pg =>
      have hne : pg ≠ gid := by
        intro hcontra
        exact hpre (by rw [hm, hcontra])
      simp only [preGainReading, hm, getNode_setNodeAt, if_neg hne]
  · intro i
    cases hb : m.eqNodes.get? i with
    | none => simp only [bandGainReading, hb]
    | some n =>
      have hne : n ≠ gid := by
        intro hcontra
        exact hbands (hcontra ▸ List.get?_mem hb)
      simp only [bandGainReading, hb, getNode_setNodeAt, if_neg hne]
  · exact (setNodeAt_frame w gid _).1
  · exact (setNodeAt_frame w gid _).2.1
  · exact (setNodeAt_frame w gid _).2.2.2.1
  · exact (setNodeAt_frame w gid _).2.2.2.2
  · intro n hn
    rw [getNode_setNodeAt, if_neg hn]

/-- Witness for C9 at the concrete wired state of the first run. -/
theorem c9_volume_zero_isolated_witness :
    volumeReading (applyVolume 0 (wiredW (nodesOf optsEqOff) 0) wiredManager) wiredManager
        = some 0 ∧
    preGainReading (applyVolume 0 (wiredW (nodesOf optsEqOff) 0) wiredManager) wiredManager
        = preGainReading (wiredW (nodesOf optsEqOff) 0) wiredManager ∧
    (∀ i, bandGainReading (applyVolume 0 (wiredW (nodesOf optsEqOff) 0) wiredManager)
        wiredManager i
      = bandGainReading (wiredW (nodesOf optsEqOff) 0) wiredManager i) ∧
    (applyVolume 0 (wiredW (nodesOf optsEqOff) 0) wiredManager).ctx
        = (wiredW (nodesOf optsEqOff) 0).ctx ∧
    (applyVolume 0 (wiredW (nodesOf optsEqOff) 0) wiredManager).mediaSrc
        = (wiredW (nodesOf optsEqOff) 0).mediaSrc ∧
    (applyVolume 0 (wiredW (nodesOf optsEqOff) 0) wiredManager).edges
        = (wiredW (nodesOf optsEqOff) 0).edges ∧
    (applyVolume 0 (wiredW (nodesOf optsEqOff) 0) wiredManager).srcCreated
        = (wiredW (nodesOf optsEqOff) 0).srcCreated ∧
    (∀ n, n ≠ 2 → (applyVolume 0 (wiredW (nodesOf optsEqOff) 0) wiredManager).getNode n
        = (wiredW (nodesOf optsEqOff) 0).getNode n) :=
  c9_volume_zero_isolated (wiredW (nodesOf optsEqOff) 0) wiredManager 2 (9/10)
    rfl rfl (by decide) (by decide)

/-- C4: every parameter update (volume, pre-gain, per-band gain, fft
size, smoothing) applied before the corresponding node exists is a
guarded no-op that raises no failure, and once `ensureGraph`
constructs the nodes, the options current at that moment — the
last-set values — are reflected in the nodes, band gains defaulting to
0 dB for indices missing from the gain list. -/
theorem c4_param_updates (host : HostEnv) (e : Nat) (opts : GraphOptions)
    (hc : host.canCreateCtx = true) :
    (∀ (v : ℚ) (w : WebAudioState), applyVolume v w ManagerState.init = w) ∧
    (∀ (v : ℚ) (w : WebAudioState), applyPreGain v w ManagerState.init = w) ∧
    (∀ (gs : List ℚ) (w : WebAudioState), applyEqGains gs w ManagerState.init = w) ∧
    (∀ (f : Nat) (s : ℚ) (w : WebAudioState), applyAnalyserOpts f s w ManagerState.init = w) ∧
    ∃ w1 m1, ensureGraph host (some e) opts WebAudioState.init ManagerState.init
        = .ok (w1, m1) ∧
      volumeReading w1 m1 = some opts.volume ∧
      preGainReading w1 m1 = some opts.eqPreGain ∧
      analyserReading w1 m1 = some (opts.fftSize, opts.smoothing) ∧
      (∀ i, i < 31 → bandGainReading w1 m1 i = some ((opts.eqGains.get? i).getD 0)) ∧
      (∀ i, i < 31 → opts.eqGains.length ≤ i → bandGainReading w1 m1 i = some 0) := by
  refine ⟨fun v w => rfl, fun v w => rfl, fun gs w => rfl, fun f s w => rfl,
    wiredW (nodesOf opts) e, wiredManager, ensureGraph_firstRun host e opts hc,
    ?_, ?_, ?_, wired_bandGainReading opts e, ?_⟩
  · simp only [volumeReading, wiredManager, wired_getNode_gain opts e]
  · simp only [preGainReading, wiredManager, wired_getNode_preGain opts e]
  · simp only [analyserReading, wiredManager, wired_getNode_analyser opts e]
  · intro i hi hlen
    rw [wired_bandGainReading opts e i hi]
    rw [List.get?_eq_none.mpr hlen]
    rfl

/-- Witness for C4 at a concrete input. -/
theorem c4_param_updates_witness :
    (∀ (v : ℚ) (w : WebAudioState), applyVolume v w ManagerState.init = w) ∧
    (∀ (v : ℚ) (w : WebAudioState), applyPreGain v w ManagerState.init = w) ∧
    (∀ (gs : List ℚ) (w : WebAudioState), applyEqGains gs w ManagerState.init = w) ∧
    (∀ (f : Nat) (s : ℚ) (w : WebAudioState), applyAnalyserOpts f s w ManagerState.init = w) ∧
    ∃ w1 m1, ensureGraph ⟨true, true⟩ (some 0) optsEqOff WebAudioState.init ManagerState.init
        = .ok (w1, m1) ∧
      volumeReading w1 m1 = some optsEqOff.volume ∧
      preGainReading w1 m1 = some optsEqOff.eqPreGain ∧
      analyserReading w1 m1 = some (optsEqOff.fftSize, optsEqOff.smoothing) ∧
      (∀ i, i < 31 → bandGainReading w1 m1 i = some ((optsEqOff.eqGains.get? i).getD 0)) ∧
      (∀ i, i < 31 → optsEqOff.eqGains.length ≤ i → bandGainReading w1 m1 i = some 0) :=
  c4_param_updates ⟨true, true⟩ 0 optsEqOff rfl

/-- C7: round-trip of band gains: once the graph is constructed, for
every band index `i < 31` and gain `g ∈ [-15, 15]`, setting entry `i`
of the (31-long) gain list to `g` and applying the reactive eq-gains
update makes the effective gain of filter band `i` read back as `g`. -/
theorem c7_band_gain_roundtrip (host : HostEnv) (e : Nat) (opts : GraphOptions)
    (gains : List ℚ) (i : Nat) (g : ℚ) (hc : host.canCreateCtx = true)
    (hi : i < 31) (hlen : gains.length = 31) (hg1 : -15 ≤ g) (hg2 : g ≤ 15) :
    ∃ w1 m1, ensureGraph host (some e) opts WebAudioState.init ManagerState.init
        = .ok (w1, m1) ∧
      bandGainReading (applyEqGains (gains.set i g) w1 m1) m1 i = some g := by
  refine ⟨wiredW (nodesOf opts) e, wiredManager, ensureGraph_firstRun host e opts hc, ?_⟩
  have hnodup : eqIds.Nodup := by decide
  have hget : eqIds.get? i = some (4 + i) := eqIds_get?_eq i hi
  have hnode := wired_getNode_band opts e i hi
  have happly := applyEqGainsAux_getNode (gains.set i g) eqIds 0 i (4 + i)
    (wiredW (nodesOf opts) e) hnodup hget
  have hset : (gains.set i g).get? i = some g := get?_set_self gains i g (by omega)
  have heq : applyEqGains (gains.set i g) (wiredW (nodesOf opts) e) wiredManager
      = applyEqGainsAux (gains.set i g) 0 eqIds (wiredW (nodesOf opts) e) := rfl
  have hget2 : wiredManager.eqNodes.get? i = some (4 + i) := hget
  simp only [bandGainReading, hget2, heq, happly, hnode, Nat.zero_add, hset,
    Option.getD, Option.map_some, NodeData.withGainParam]
  simp

/-- Witness for C7 at a concrete input. -/
theorem c7_band_gain_roundtrip_witness :
    ∃ w1 m1, ensureGraph ⟨true, true⟩ (some 0) optsEqOff WebAudioState.init ManagerState.init
        = .ok (w1, m1) ∧
      bandGainReading (applyEqGains ((List.replicate 31 (0 : ℚ)).set 5 (-15)) w1 m1) m1 5
        = some (-15) :=
  c7_band_gain_roundtrip ⟨true, true⟩ 0 optsEqOff (List.replicate 31 0) 5 (-15) rfl
    (by decide) (by simp) (by decide) (by decide)

/-- C8: the filter-band set consists of exactly 31 peaking filters at
the fixed 1/3-octave table frequencies (strictly increasing from 20 Hz
to 20 kHz), each with quality factor 4.31; the set is created all at
once or not at all, is never recreated by later `ensureGraph` calls,
and the reactive eq-gains update mutates only each band's gain,
leaving type, frequency and Q unchanged. -/
theorem c8_filter_bands (host : HostEnv) (e : Nat) (opts opts2 : GraphOptions)
    (hc : host.canCreateCtx = true) :
    EQ_FREQUENCIES.length = 31 ∧
    List.Pairwise (· < ·) EQ_FREQUENCIES ∧
    EQ_FREQUENCIES.headD 0 = 20 ∧ EQ_FREQUENCIES.getLastD 0 = 20000 ∧
    (∀ (opts3 : GraphOptions) (w : WebAudioState) (m : ManagerState),
      (m.eqNodes.isEmpty = true → (stageEq opts3 w m).2.eqNodes.length = 31) ∧
      (m.eqNodes.isEmpty = false → (stageEq opts3 w m).2.eqNodes = m.eqNodes)) ∧
    ∃ w1 m1, ensureGraph host (some e) opts WebAudioState.init ManagerState.init
        = .ok (w1, m1) ∧
      m1.eqNodes.length = 31 ∧
      (∀ i, i < 31 → bandNodeReading w1 m1 i
        = some (.biquad .peaking (EQ_FREQUENCIES.getD i 0) 4.31 ((opts.eqGains.get? i).getD 0))) ∧
      ensureGraph host (some e) opts2 w1 m1 = .ok (w1, m1) ∧
      (∀ (gs : List ℚ) i, i < 31 →
        bandNodeReading (applyEqGains gs w1 m1) m1 i
          = some (.biquad .peaking (EQ_FREQUENCIES.getD i 0) 4.31 ((gs.get? i).getD 0))) := by
  refine ⟨by decide, by decide, by decide, by decide, ?_,
    wiredW (nodesOf opts) e, wiredManager, ensureGraph_firstRun host e opts hc,
    by decide, ?_, ensureGraph_idem host e opts2 (nodesOf opts), ?_⟩
  · intro opts3 w m
    constructor
    · intro hemp
      simp [stageEq, hemp]
      rfl
    · intro hemp
      simp [stageEq, hemp]
  · intro i hi
    have hget2 : wiredManager.eqNodes.get? i = some (4 + i) := eqIds_get?_eq i hi
    simp only [bandNodeReading, hget2, wired_getNode_band opts e i hi]
  · intro gs i hi
    have hnodup : eqIds.Nodup := by decide
    have hget : eqIds.get? i = some (4 + i) := eqIds_get?_eq i hi
    have hget2 : wiredManager.eqNodes.get? i = some (4 + i) := hget
    have happly := applyEqGainsAux_getNode gs eqIds 0 i (4 + i)
      (wiredW (nodesOf opts) e) hnodup hget
    have heq : applyEqGains gs (wiredW (nodesOf opts) e) wiredManager
        = applyEqGainsAux gs 0 eqIds (wiredW (nodesOf opts) e) := rfl
    simp only [bandNodeReading, hget2, heq, happly, wired_getNode_band opts e i hi,
      Nat.zero_add, NodeData.withGainParam]
    simp

/-- Witness for C8 at a concrete input. -/
theorem c8_filter_bands_witness :
    EQ_FREQUENCIES.length = 31 ∧
    List.Pairwise (· < ·) EQ_FREQUENCIES ∧
    EQ_FREQUENCIES.headD 0 = 20 ∧ EQ_FREQUENCIES.getLastD 0 = 20000 ∧
    (∀ (opts3 : GraphOptions) (w : WebAudioState) (m : ManagerState),
      (m.eqNodes.isEmpty = true → (stageEq opts3 w m).2.eqNodes.length = 31) ∧
      (m.eqNodes.isEmpty = false → (stageEq opts3 w m).2.eqNodes = m.eqNodes)) ∧
    ∃ w1 m1, ensureGraph ⟨true, true⟩ (some 0) optsEqOff WebAudioState.init ManagerState.init
        = .ok (w1, m1) ∧
      m1.eqNodes.length = 31 ∧
      (∀ i, i < 31 → bandNodeReading w1 m1 i
        = some (.biquad .peaking (EQ_FREQUENCIES.getD i 0) 4.31
            ((optsEqOff.eqGains.get? i).getD 0))) ∧
      ensureGraph ⟨true, true⟩ (some 0) optsEqOff w1 m1 = .ok (w1, m1) ∧
      (∀ (gs : List ℚ) i, i < 31 →
        bandNodeReading (applyEqGains gs w1 m1) m1 i
          = some (.biquad .peaking (EQ_FREQUENCIES.getD i 0) 4.31 ((gs.get? i).getD 0))) :=
  c8_filter_bands ⟨true, true⟩ 0 optsEqOff optsEqOff rfl

/-- C5: disposal disconnects and clears only the manager's own node
references, leaves the process-wide context and the identity-keyed
source-binding table unchanged, and a subsequent `ensureGraph` on the
same element identity reuses the existing context and source binding
while constructing fresh gain, filter and analysis nodes. -/
theorem c5_dispose_and_rebuild (host : HostEnv) (e : Nat) (opts opts2 : GraphOptions)
    (hc : host.canCreateCtx = true) :
    ∃ w1 m1, ensureGraph host (some e) opts WebAudioState.init ManagerState.init
        = .ok (w1, m1) ∧
      (cleanup w1 m1).1.ctx = w1.ctx ∧
      (cleanup w1 m1).1.mediaSrc = w1.mediaSrc ∧
      (cleanup w1 m1).1.nodes = w1.nodes ∧
      (cleanup w1 m1).1.srcCreated = w1.srcCreated ∧
      (cleanup w1 m1).1.edges = [] ∧
      (cleanup w1 m1).2.srcNode = none ∧
      (cleanup w1 m1).2.gain = none ∧
      (cleanup w1 m1).2.preGain = none ∧
      (cleanup w1 m1).2.eqNodes = [] ∧
      (cleanup w1 m1).2.analyser = none ∧
      ∃ w3 m3, ensureGraph host (some e) opts2 (cleanup w1 m1).1 (cleanup w1 m1).2
          = .ok (w3, m3) ∧
        w3.ctx = w1.ctx ∧ w3.mediaSrc = w1.mediaSrc ∧ w3.srcCreated = w1.srcCreated ∧
        m3.srcNode = m1.srcNode ∧
        m3.gain ≠ m1.gain ∧ m3.preGain ≠ m1.preGain ∧ m3.analyser ≠ m1.analyser ∧
        (∀ n ∈ m3.eqNodes, n ∉ m1.eqNodes) := by
  refine ⟨wiredW (nodesOf opts) e, wiredManager, ensureGraph_firstRun host e opts hc, ?_⟩
  rw [cleanup_wired (nodesOf opts) e]
  exact ⟨rfl, rfl, rfl, rfl, rfl, rfl, rfl, rfl, rfl, rfl,
    wiredW2 (nodesOf2 opts2 (nodesOf opts)) e, wiredManager2,
    ensureGraph_secondRun host e opts2 (nodesOf opts),
    rfl, rfl, rfl, rfl, by decide, by decide, by decide, by decide⟩

/-- Witness for C5 at a concrete input. -/
theorem c5_dispose_and_rebuild_witness :
    ∃ w1 m1, ensureGraph ⟨true, true⟩ (some 0) optsEqOff WebAudioState.init ManagerState.init
        = .ok (w1, m1) ∧
      (cleanup w1 m1).1.ctx = w1.ctx ∧
      (cleanup w1 m1).1.mediaSrc = w1.mediaSrc ∧
      (cleanup w1 m1).1.nodes = w1.nodes ∧
      (cleanup w1 m1).1.srcCreated = w1.srcCreated ∧
      (cleanup w1 m1).1.edges = [] ∧
      (cleanup w1 m1).2.srcNode = none ∧
      (cleanup w1 m1).2.gain = none ∧
      (cleanup w1 m1).2.preGain = none ∧
      (cleanup w1 m1).2.eqNodes = [] ∧
      (cleanup w1 m1).2.analyser = none ∧
      ∃ w3 m3, ensureGraph ⟨true, true⟩ (some 0) optsEqOff (cleanup w1 m1).1 (cleanup w1 m1).2
          = .ok (w3, m3) ∧
        w3.ctx = w1.ctx ∧ w3.mediaSrc = w1.mediaSrc ∧ w3.srcCreated = w1.srcCreated ∧
        m3.srcNode = m1.srcNode ∧
        m3.gain ≠ m1.gain ∧ m3.preGain ≠ m1.preGain ∧ m3.analyser ≠ m1.analyser ∧
        (∀ n ∈ m3.eqNodes, n ∉ m1.eqNodes) :=
  c5_dispose_and_rebuild ⟨true, true⟩ 0 optsEqOff optsEqOff rfl

/-- `stageGain` never touches the side table or the creation log. -/
lemma stageGain_globals (opts : GraphOptions) (w : WebAudioState) (m : ManagerState) :
    (stageGain opts w m).1.mediaSrc = w.mediaSrc ∧
    (stageGain opts w m).1.srcCreated = w.srcCreated := by
  cases h : m.gain <;> simp [stageGain, h, WebAudioState.allocNode]

/-- `stagePreGain` never touches the side table or the creation log. -/
lemma stagePreGain_globals (opts : GraphOptions) (w : WebAudioState) (m : ManagerState) :
    (stagePreGain opts w m).1.mediaSrc = w.mediaSrc ∧
    (stagePreGain opts w m).1.srcCreated = w.srcCreated := by
  cases h : m.preGain <;> simp [stagePreGain, h, WebAudioState.allocNode]

/-- `stageEq` never touches the side table or the creation log. -/
lemma stageEq_globals (opts : GraphOptions) (w : WebAudioState) (m : ManagerState) :
    (stageEq opts w m).1.mediaSrc = w.mediaSrc ∧
    (stageEq opts w m).1.srcCreated = w.srcCreated := by
  by_cases h : m.eqNodes.isEmpty <;> simp [stageEq, h]

/-- `stageAnalyser` never touches the side table or the creation log. -/
lemma stageAnalyser_globals (opts : GraphOptions) (w : WebAudioState) (m : ManagerState) :
    (stageAnalyser opts w m).1.mediaSrc = w.mediaSrc ∧
    (stageAnalyser opts w m).1.srcCreated = w.srcCreated := by
  cases h : m.analyser <;> simp [stageAnalyser, h, WebAudioState.allocNode]

/-- The wiring stage only changes the edges. -/
lemma stageWire_globals (src destId : Nat) (w : WebAudioState) (m : ManagerState) :
    (stageWire src destId w m).mediaSrc = w.mediaSrc ∧
    (stageWire src destId w m).srcCreated = w.srcCreated := ⟨rfl, rfl⟩

/-- The body's side table and creation log are exactly those left by
the source-binding stage. -/
lemma body_globals (el : Nat) (opts : GraphOptions) (destId : Nat) (w : WebAudioState)
    (m : ManagerState) :
    (ensureGraphBody el opts destId w m).1.mediaSrc = (stageSrc el w m).2.1.mediaSrc ∧
    (ensureGraphBody el opts destId w m).1.srcCreated = (stageSrc el w m).2.1.srcCreated := by
  unfold ensureGraphBody
  constructor
  · rw [(stageWire_globals _ _ _ _).1, (stageAnalyser_globals _ _ _).1,
      (stageEq_globals _ _ _).1, (stagePreGain_globals _ _ _).1, (stageGain_globals _ _ _).1]
  · rw [(stageWire_globals _ _ _ _).2, (stageAnalyser_globals _ _ _).2,
      (stageEq_globals _ _ _).2, (stagePreGain_globals _ _ _).2, (stageGain_globals _ _ _).2]

/-- The source-binding stage preserves the creation invariant: it
either finds the binding (and changes nothing global) or creates and
inserts it in the same atomic segment. -/
lemma stageSrc_sourceInvariant (el : Nat) (w : WebAudioState) (m : ManagerState)
    (h : sourceInvariant w) : sourceInvariant (stageSrc el w m).2.1 := by
  intro e
  cases hfind : assocFind w.mediaSrc el with
  | some s => simpa [stageSrc, hfind] using h e
  | none =>
    by_cases he : e = el
    · subst he
      have := h e
      rw [hfind] at this
      simp only [Option.isSome_none, Bool.false_eq_true, if_false] at this
      simp [stageSrc, hfind, WebAudioState.allocNode, assocFind, List.count_cons, this]
    · have := h e
      simp [stageSrc, hfind, WebAudioState.allocNode, assocFind, Ne.symm he,
        List.count_cons, he, this]

/-- After the source-binding stage, the element is bound. -/
lemma stageSrc_bound (el : Nat) (w : WebAudioState) (m : ManagerState) :
    (assocFind (stageSrc el w m).2.1.mediaSrc el).isSome := by
  cases hfind : assocFind w.mediaSrc el with
  | some s => simp [stageSrc, hfind]
  | none => simp [stageSrc, hfind, WebAudioState.allocNode, assocFind]

/-- Bindings are never removed from the side table. -/
lemma stageSrc_mono (el : Nat) (w : WebAudioState) (m : ManagerState) (e : Nat)
    (h : (assocFind w.mediaSrc e).isSome) :
    (assocFind (stageSrc el w m).2.1.mediaSrc e).isSome := by
  cases hfind : assocFind w.mediaSrc el with
  | some s => simpa [stageSrc, hfind] using h
  | none =>
    by_cases he : e = el
    · subst he
      simp [stageSrc, hfind, WebAudioState.allocNode, assocFind]
    · simpa [stageSrc, hfind, WebAudioState.allocNode, assocFind, Ne.symm he, he] using h

/-- The body preserves the creation invariant. -/
lemma body_sourceInvariant (el : Nat) (opts : GraphOptions) (destId : Nat)
    (w : WebAudioState) (m : ManagerState) (h : sourceInvariant w) :
    sourceInvariant (ensureGraphBody el opts destId w m).1 := by
  intro e
  rw [(body_globals el opts destId w m).1, (body_globals el opts destId w m).2]
  exact stageSrc_sourceInvariant el w m h e

/-- After the body, its element is bound in the side table. -/
lemma body_bound (el : Nat) (opts : GraphOptions) (destId : Nat)
    (w : WebAudioState) (m : ManagerState) :
    (assocFind (ensureGraphBody el opts destId w m).1.mediaSrc el).isSome := by
  rw [(body_globals el opts destId w m).1]
  exact stageSrc_bound el w m

/-- The body never removes a binding. -/
lemma body_mono (el : Nat) (opts : GraphOptions) (destId : Nat)
    (w : WebAudioState) (m : ManagerState) (e : Nat)
    (h : (assocFind w.mediaSrc e).isSome) :
    (assocFind (ensureGraphBody el opts destId w m).1.mediaSrc e).isSome := by
  rw [(body_globals el opts destId w m).1]
  exact stageSrc_mono el w m e h

/-- `resumeIfSuspended` only changes the context flag. -/
lemma resumeIfSuspended_globals (w : WebAudioState) :
    (resumeIfSuspended w).mediaSrc = w.mediaSrc ∧
    (resumeIfSuspended w).srcCreated = w.srcCreated := by
  unfold resumeIfSuspended
  cases h : w.ctx with
  | none => exact ⟨rfl, rfl⟩
  | some c => by_cases hs : c.suspended <;> simp [hs]

/-- Every atomic step preserves the invariant. -/
lemma stepCall_c2Inv (host : HostEnv) (s : SysState) (i : Nat) (h : c2Inv s) :
    c2Inv (stepCall host s i) := by
  obtain ⟨hsrc, hdone⟩ := h
  have hpark : ∀ (s1 : SysState) (c : CallState) (ph : CallPhase),
      s1.w.mediaSrc = s.w.mediaSrc → s1.w.srcCreated = s.w.srcCreated →
      s1.calls = s.calls → ph ≠ .done → c2Inv (setPhase s1 i c ph) := by
    intro s1 c ph hms hsc hcalls hph
    constructor
    · intro e
      show (setPhase s1 i c ph).w.srcCreated.count e = _
      simp only [setPhase]
      simp only [hms, hsc]
      exact hsrc e
    · intro c' hc' hph'
      simp only [setPhase, hcalls] at hc'
      rcases List.mem_or_eq_of_mem_set hc' with hmem | rfl
      · obtain ⟨e, he, hb⟩ := hdone c' hmem hph'
        refine ⟨e, he, ?_⟩
        show (assocFind (setPhase s1 i c ph).w.mediaSrc e).isSome
        simp only [setPhase]
        rw [hms]
        exact hb
      · exact absurd hph' hph
  have hbody : ∀ (s1 : SysState) (c : CallState) (el destId : Nat),
      c.el = some el →
      s1.calls = s.calls →
      sourceInvariant s1.w →
      (∀ e, (assocFind s.w.mediaSrc e).isSome → (assocFind s1.w.mediaSrc e).isSome) →
      c2Inv (runBodyIn s1 c i el destId) := by
    intro s1 c el destId hel hcalls hw1 hmono
    refine ⟨body_sourceInvariant el c.opts destId s1.w _ hw1, ?_⟩
    intro c' hc' hph'
    simp only [runBodyIn, setPhase, hcalls] at hc' ⊢
    rcases List.mem_or_eq_of_mem_set hc' with hmem | rfl
    · obtain ⟨e, he, hb⟩ := hdone c' hmem hph'
      exact ⟨e, he, body_mono el c.opts destId s1.w _ e (hmono e hb)⟩
    · exact ⟨el, hel, body_bound el c.opts destId s1.w _⟩
  unfold stepCall
  cases hc : s.calls.get? i with
  | none => exact ⟨hsrc, hdone⟩
  | some c =>
    obtain ⟨cm, cel, copts, cph⟩ := c
    cases cph with
    | entry =>
      cases cel with
      | none => exact hpark s _ .skipped rfl rfl rfl (by simp)
      | some el =>
        cases hctx : s.w.ctx with
        | some ctx =>
          by_cases hsus : ctx.suspended
          · simp only [hsus, if_true]
            exact hpark (setMgrCtxRef s cm) _ .awaitingResume rfl rfl rfl (by simp)
          · simp only [hsus, if_false]
            exact hbody (setMgrCtxRef s cm) _ el ctx.destId rfl rfl hsrc (fun e he => he)
        | none =>
          by_cases hcan : host.canCreateCtx
          · simp only [hcan, if_true]
            by_cases hsus : host.newCtxSuspended
            · simp only [hsus, if_true]
              exact hpark _ _ .awaitingResume rfl rfl rfl (by simp)
            · simp only [hsus, if_false]
              exact hbody _ _ el 0 rfl rfl hsrc (fun e he => he)
          · simp only [hcan, if_false]
            exact hpark s _ .failed rfl rfl rfl (by simp)
    | awaitingResume =>
      cases cel with
      | none => cases s.w.ctx <;> exact ⟨hsrc, hdone⟩
      | some el =>
        cases hctx : s.w.ctx with
        | none => exact ⟨hsrc, hdone⟩
        | some ctx =>
          have hr := resumeIfSuspended_globals s.w
          refine hbody _ _ el ctx.destId rfl rfl ?_ ?_
          · intro e
            show (resumeIfSuspended s.w).srcCreated.count e = _
            rw [hr.1, hr.2]
            exact hsrc e
          · intro e he
            show (assocFind (resumeIfSuspended s.w).mediaSrc e).isSome
            rw [hr.1]
            exact he
    | done => exact ⟨hsrc, hdone⟩
    | skipped => exact ⟨hsrc, hdone⟩
    | failed => exact ⟨hsrc, hdone⟩

/-- The invariant is preserved along any schedule. -/
lemma runCalls_c2Inv (host : HostEnv) :
    ∀ (sched : List Nat) (s : SysState), c2Inv s → c2Inv (runCalls host s sched) := by
  intro sched
  induction sched with
  | nil => intro s h; exact h
  | cons i rest ih =>
    intro s h
    exact ih (stepCall host s i) (stepCall_c2Inv host s i h)

/-- C2: for every family of `ensureGraph()` calls — across any
`useAudioGraph` instances, with any overlap of their awaited
context-resume steps — executed under any interleaving from a fresh
process state, at most one media-source node is ever created per
element identity, and exactly one has been created for the identity of
every completed call.  The side table is checked before creation and
populated in the same atomic segment, with no suspension point in
between (`stageSrc` is part of the single post-resume segment of
`stepCall`). -/
theorem c2_single_source_binding (host : HostEnv) (mgrs : List ManagerState)
    (calls : List CallState) (sched : List Nat) (e : Nat)
    (hphase : ∀ c ∈ calls, c.phase = .entry) :
    (runCalls host ⟨WebAudioState.init, mgrs, calls⟩ sched).w.srcCreated.count e ≤ 1 ∧
    (∀ c ∈ (runCalls host ⟨WebAudioState.init, mgrs, calls⟩ sched).calls,
      c.phase = .done → c.el = some e →
      (runCalls host ⟨WebAudioState.init, mgrs, calls⟩ sched).w.srcCreated.count e = 1) := by
  have hinit : c2Inv ⟨WebAudioState.init, mgrs, calls⟩ := by
    constructor
    · intro e0
      simp [WebAudioState.init, sourceInvariant, assocFind]
    · intro c hc hph
      rw [hphase c hc] at hph
      cases hph
  have hfin := runCalls_c2Inv host sched _ hinit
  obtain ⟨hsrc, hdone⟩ := hfin
  constructor
  · have := hsrc e
    by_cases hb : (assocFind (runCalls host ⟨WebAudioState.init, mgrs, calls⟩ sched).w.mediaSrc
        e).isSome
    · simp only [hb, if_true] at this
      omega
    · simp only [hb, Bool.false_eq_true, if_false] at this
      omega
  · intro c hc hph hel
    obtain ⟨e', he', hb⟩ := hdone c hc hph
    rw [hel] at he'
    cases he'
    have := hsrc e
    rw [hb] at this
    simpa using this

/-- Witness for C2: two overlapping calls against the same element in
a suspended context, interleaved at the resume point. -/
theorem c2_single_source_binding_witness :
    (runCalls ⟨true, true⟩
      ⟨WebAudioState.init, [ManagerState.init],
        [⟨0, some 5, optsEqOff, .entry⟩, ⟨0, some 5, optsEqOff, .entry⟩]⟩
      [0, 1, 0, 1]).w.srcCreated.count 5 ≤ 1 ∧
    (∀ c ∈ (runCalls ⟨true, true⟩
      ⟨WebAudioState.init, [ManagerState.init],
        [⟨0, some 5, optsEqOff, .entry⟩, ⟨0, some 5, optsEqOff, .entry⟩]⟩
      [0, 1, 0, 1]).calls,
      c.phase = .done → c.el = some 5 →
      (runCalls ⟨true, true⟩
        ⟨WebAudioState.init, [ManagerState.init],
          [⟨0, some 5, optsEqOff, .entry⟩, ⟨0, some 5, optsEqOff, .entry⟩]⟩
        [0, 1, 0, 1]).w.srcCreated.count 5 = 1) :=
  c2_single_source_binding ⟨true, true⟩ [ManagerState.init]
    [⟨0, some 5, optsEqOff, .entry⟩, ⟨0, some 5, optsEqOff, .entry⟩] [0, 1, 0, 1] 5
    (by decide)

/-- Resuming the fresh-context state clears the suspended flag. -/
lemma resume_ctxOnly (b : Bool) : resumeIfSuspended (ctxOnlyW b) = ctxOnlyW false := by
  cases b <;> rfl

/-- Resuming the wired state is a no-op (it is already running). -/
lemma resume_wired (ns : List (Nat × NodeData)) (e : Nat) :
    resumeIfSuspended (wiredW ns e) = wiredW ns e := rfl

/-- Installing the context ref on the single manager of the
fresh-context state. -/
lemma setMgr_clean (b : Bool) (scalls : List CallState) :
    setMgrCtxRef ⟨ctxOnlyW b, [ManagerState.init], scalls⟩ 0
      = ⟨ctxOnlyW b, [mgrCtxOnly], scalls⟩ := rfl

/-- Installing the context ref is a no-op once it is installed. -/
lemma setMgr_ctxOnly (b : Bool) (scalls : List CallState) :
    setMgrCtxRef ⟨ctxOnlyW b, [mgrCtxOnly], scalls⟩ 0
      = ⟨ctxOnlyW b, [mgrCtxOnly], scalls⟩ := rfl

/-- Installing the context ref is a no-op on the wired manager. -/
lemma setMgr_wired (ns : List (Nat × NodeData)) (e : Nat) (scalls : List CallState) :
    setMgrCtxRef ⟨wiredW ns e, [wiredManager], scalls⟩ 0
      = ⟨wiredW ns e, [wiredManager], scalls⟩ := rfl

set_option maxRecDepth 8000 in
set_option maxHeartbeats 1600000 in
/-- Running the body from the fresh-context state produces the wired
state and marks the call done. -/
lemma runBodyIn_ctxOnly (scalls : List CallState) (i : Nat) (copts : GraphOptions)
    (e : Nat) (cph : CallPhase) :
    runBodyIn ⟨ctxOnlyW false, [mgrCtxOnly], scalls⟩ ⟨0, some e, copts, cph⟩ i e 0
      = ⟨wiredW (nodesOf copts) e, [wiredManager],
         scalls.set i ⟨0, some e, copts, .done⟩⟩ := by
  have hbody := ensureGraphBody_ctxOnly e copts (some ⟨false, 0⟩)
  simp only [runBodyIn, setPhase, List.getD_cons_zero]
  rw [show (ctxOnlyW false)
      = { ctx := some ⟨false, 0⟩, mediaSrc := [], nextId := 1,
          nodes := [(0, .destination)], edges := [], srcCreated := [] } from rfl]
  rw [hbody]
  rfl

set_option maxRecDepth 8000 in
set_option maxHeartbeats 1600000 in
/-- Running the body from the wired state is idempotent and marks the
call done. -/
lemma runBodyIn_wired (scalls : List CallState) (i : Nat) (copts : GraphOptions)
    (e : Nat) (cph : CallPhase) (ns : List (Nat × NodeData)) :
    runBodyIn ⟨wiredW ns e, [wiredManager], scalls⟩ ⟨0, some e, copts, cph⟩ i e 0
      = ⟨wiredW ns e, [wiredManager], scalls.set i ⟨0, some e, copts, .done⟩⟩ := by
  have hbody := ensureGraphBody_idem e copts ns
  simp only [runBodyIn, setPhase, List.getD_cons_zero]
  rw [hbody]
  rfl

/-- Per-call facts after marking one call's new phase. -/
lemma wireCalls_set (e : Nat) (scalls : List CallState)
    (hcalls : ∀ c ∈ scalls, c.mgr = 0 ∧ c.el = some e ∧
      (c.phase = .entry ∨ c.phase = .awaitingResume ∨ c.phase = .done))
    (i : Nat) (copts : GraphOptions) (ph : CallPhase)
    (hph : ph = .entry ∨ ph = .awaitingResume ∨ ph = .done) :
    ∀ c ∈ scalls.set i ⟨0, some e, copts, ph⟩, c.mgr = 0 ∧ c.el = some e ∧
      (c.phase = .entry ∨ c.phase = .awaitingResume ∨ c.phase = .done) := by
  intro c hc
  rcases List.mem_or_eq_of_mem_set hc with hmem | rfl
  · exact hcalls c hmem
  · exact ⟨rfl, rfl, hph⟩

/-- No call is done after marking one call parked, provided none was. -/
lemma wireCalls_set_nodone (scalls : List CallState)
    (hnd : ∀ c ∈ scalls, c.phase ≠ .done)
    (i : Nat) (c0 : CallState) (hc0 : c0.phase ≠ .done) :
    ∀ c ∈ scalls.set i c0, c.phase ≠ .done := by
  intro c hc
  rcases List.mem_or_eq_of_mem_set hc with hmem | rfl
  · exact hnd c hmem
  · exact hc0

set_option maxRecDepth 8000 in
set_option maxHeartbeats 1600000 in
/-- Every atomic step preserves the wiring invariant. -/
lemma stepCall_wireInv (host : HostEnv) (e : Nat) (hcan : host.canCreateCtx = true)
    (s : SysState) (i : Nat) (h : wireInv e s) : wireInv e (stepCall host s i) := by
  obtain ⟨cc, nsus⟩ := host
  replace hcan : cc = true := hcan
  subst hcan
  obtain ⟨sw, smgrs, scalls⟩ := s
  obtain ⟨hcalls, hstate⟩ := h
  unfold stepCall
  cases hc : scalls.get? i with
  | none => exact ⟨hcalls, hstate⟩
  | some c =>
    have hcmem : c ∈ scalls := List.get?_mem hc
    obtain ⟨hm0, hel, hph3⟩ := hcalls c hcmem
    obtain ⟨cm, cel, copts, cph⟩ := c
    replace hm0 : cm = 0 := hm0
    replace hel : cel = some e := hel
    subst hm0 hel
    replace hph3 : cph = .entry ∨ cph = .awaitingResume ∨ cph = .done := hph3
    rcases hstate with ⟨hw, hmgrs, hentry⟩ | ⟨b, hw, hmgrs, hnodone⟩ | ⟨ns, hw, hmgrs⟩
    · -- pristine state: the call must be at entry
      replace hw : sw = WebAudioState.init := hw
      replace hmgrs : smgrs = [ManagerState.init] := hmgrs
      subst hw hmgrs
      have hcph : cph = .entry := hentry _ hcmem
      subst hcph
      cases nsus with
      | true =>
        show wireInv e ⟨ctxOnlyW true, [mgrCtxOnly],
          scalls.set i ⟨0, some e, copts, .awaitingResume⟩⟩
        refine ⟨wireCalls_set e scalls hcalls i copts .awaitingResume (Or.inr (Or.inl rfl)), ?_⟩
        refine Or.inr (Or.inl ⟨true, rfl, rfl, ?_⟩)
        exact wireCalls_set_nodone scalls
          (fun c hcm => by rw [hentry c hcm]; simp) i _ (by simp)
      | false =>
        show wireInv e (runBodyIn ⟨ctxOnlyW false, [mgrCtxOnly], scalls⟩
          ⟨0, some e, copts, .entry⟩ i e 0)
        rw [runBodyIn_ctxOnly]
        exact ⟨wireCalls_set e scalls hcalls i copts .done (Or.inr (Or.inr rfl)),
          Or.inr (Or.inr ⟨nodesOf copts, rfl, rfl⟩)⟩
    · -- context created, no body yet
      replace hw : sw = ctxOnlyW b := hw
      replace hmgrs : smgrs = [mgrCtxOnly] := hmgrs
      subst hw hmgrs
      have hcph2 : cph = .entry ∨ cph = .awaitingResume := by
        rcases hph3 with h1 | h2 | h3
        · exact Or.inl h1
        · exact Or.inr h2
        · exact absurd h3 (hnodone _ hcmem)
      cases b with
      | true =>
        rcases hcph2 with hcph | hcph <;> subst hcph
        · -- entry on a suspended context: park at the await
          show wireInv e ⟨ctxOnlyW true, [mgrCtxOnly],
            scalls.set i ⟨0, some e, copts, .awaitingResume⟩⟩
          exact ⟨wireCalls_set e scalls hcalls i copts .awaitingResume (Or.inr (Or.inl rfl)),
            Or.inr (Or.inl ⟨true, rfl, rfl,
              wireCalls_set_nodone scalls hnodone i _ (by simp)⟩)⟩
        · -- parked call: resume completes and the body runs
          show wireInv e (runBodyIn ⟨ctxOnlyW false, [mgrCtxOnly], scalls⟩
            ⟨0, some e, copts, .awaitingResume⟩ i e 0)
          rw [runBodyIn_ctxOnly]
          exact ⟨wireCalls_set e scalls hcalls i copts .done (Or.inr (Or.inr rfl)),
            Or.inr (Or.inr ⟨nodesOf copts, rfl, rfl⟩)⟩
      | false =>
        rcases hcph2 with hcph | hcph <;> subst hcph
        · -- entry on a running context: the body runs at once
          show wireInv e (runBodyIn ⟨ctxOnlyW false, [mgrCtxOnly], scalls⟩
            ⟨0, some e, copts, .entry⟩ i e 0)
          rw [runBodyIn_ctxOnly]
          exact ⟨wireCalls_set e scalls hcalls i copts .done (Or.inr (Or.inr rfl)),
            Or.inr (Or.inr ⟨nodesOf copts, rfl, rfl⟩)⟩
        · -- parked call on a running context: resume is a no-op
          show wireInv e (runBodyIn ⟨ctxOnlyW false, [mgrCtxOnly], scalls⟩
            ⟨0, some e, copts, .awaitingResume⟩ i e 0)
          rw [runBodyIn_ctxOnly]
          exact ⟨wireCalls_set e scalls hcalls i copts .done (Or.inr (Or.inr rfl)),
            Or.inr (Or.inr ⟨nodesOf copts, rfl, rfl⟩)⟩
    · -- fully wired: the body re-runs idempotently (or the call is done)
      replace hw : sw = wiredW ns e := hw
      replace hmgrs : smgrs = [wiredManager] := hmgrs
      subst hw hmgrs
      rcases hph3 with hcph | hcph | hcph <;> subst hcph
      · show wireInv e (runBodyIn ⟨wiredW ns e, [wiredManager], scalls⟩
          ⟨0, some e, copts, .entry⟩ i e 0)
        rw [runBodyIn_wired]
        exact ⟨wireCalls_set e scalls hcalls i copts .done (Or.inr (Or.inr rfl)),
          Or.inr (Or.inr ⟨ns, rfl, rfl⟩)⟩
      · show wireInv e (runBodyIn ⟨wiredW ns e, [wiredManager], scalls⟩
          ⟨0, some e, copts, .awaitingResume⟩ i e 0)
        rw [runBodyIn_wired]
        exact ⟨wireCalls_set e scalls hcalls i copts .done (Or.inr (Or.inr rfl)),
          Or.inr (Or.inr ⟨ns, rfl, rfl⟩)⟩
      · exact ⟨hcalls, Or.inr (Or.inr ⟨ns, rfl, rfl⟩)⟩

/-- The wiring invariant is preserved along any schedule. -/
lemma runCalls_wireInv (host : HostEnv) (e : Nat) (hcan : host.canCreateCtx = true) :
    ∀ (sched : List Nat) (s : SysState), wireInv e s → wireInv e (runCalls host s sched) := by
  intro sched
  induction sched with
  | nil => intro s h; exact h
  | cons i rest ih =>
    intro s h
    exact ih (stepCall host s i) (stepCall_wireInv host e hcan s i h)

/-- The concrete edge list of the wired chain satisfies the
exactly-once counting properties. -/
lemma chain_once_decide :
    (∀ j < chainIds.length - 1,
      wiredEdges.countP (fun p => p.1 == chainIds.getD j 0) = 1 ∧
      (chainIds.getD j 0, chainIds.getD (j + 1) 0) ∈ wiredEdges) ∧
    wiredEdges.countP (fun p => p.2 == 0) = 1 := by decide

/-- C3: `ensureGraph` is idempotent with respect to wiring.  Over any
schedule of any number of calls on the same element — including two
fired back-to-back with no await between them — no call throws for the
already-connected case (disconnect-before-connect is unconditional and
disconnecting an unconnected node is a no-op), and once any call has
completed, each chain node has exactly one outgoing connection, to its
successor, and exactly one edge reaches the destination. -/
theorem c3_idempotent_wiring (host : HostEnv) (e : Nat) (opts : List GraphOptions)
    (sched : List Nat) (hcan : host.canCreateCtx = true) :
    c3Post (runCalls host ⟨WebAudioState.init, [ManagerState.init],
      opts.map (fun o => ⟨0, some e, o, .entry⟩)⟩ sched) ∧
    ∀ es n, (∀ p ∈ es, p.1 ≠ n) → edgesDisconnect es n = es := by
  have hinv0 : wireInv e ⟨WebAudioState.init, [ManagerState.init],
      opts.map (fun o => ⟨0, some e, o, .entry⟩)⟩ := by
    constructor
    · intro c hc
      obtain ⟨o, ho, rfl⟩ := List.mem_map.mp hc
      exact ⟨rfl, rfl, Or.inl rfl⟩
    · refine Or.inl ⟨rfl, rfl, ?_⟩
      intro c hc
      obtain ⟨o, ho, rfl⟩ := List.mem_map.mp hc
      rfl
  have hinv := runCalls_wireInv host e hcan sched _ hinv0
  obtain ⟨hcalls, hstate⟩ := hinv
  refine ⟨⟨?_, ?_⟩, ?_⟩
  · intro c hc
    obtain ⟨-, -, h3⟩ := hcalls c hc
    constructor <;> rcases h3 with h | h | h <;> simp [h]
  · rintro ⟨c, hc, hdone⟩
    rcases hstate with ⟨-, -, hentry⟩ | ⟨b, -, -, hnodone⟩ | ⟨ns, hw, -⟩
    · have hph := hentry c hc
      rw [hdone] at hph
      simp at hph
    · exact absurd hdone (hnodone c hc)
    · rw [hw]
      exact ⟨rfl, chain_once_decide.1, chain_once_decide.2⟩
  · intro es n hno
    exact List.filter_eq_self.mpr (fun p hp => by simpa using hno p hp)

/-- C3 at a concrete input: two back-to-back calls on element 5,
interleaved segment by segment on a suspended context. -/
theorem c3_idempotent_wiring_witness :
    (⟨true, true⟩ : HostEnv).canCreateCtx = true ∧
    (c3Post (runCalls ⟨true, true⟩ ⟨WebAudioState.init, [ManagerState.init],
        [optsEqOff, optsEqOff].map (fun o => ⟨0, some 5, o, .entry⟩)⟩ [0, 1, 0, 1]) ∧
      ∀ es n, (∀ p ∈ es, p.1 ≠ n) → edgesDisconnect es n = es) :=
  ⟨rfl, c3_idempotent_wiring ⟨true, true⟩ 5 [optsEqOff, optsEqOff] [0, 1, 0, 1] rfl⟩
